import Mathlib

/-!
Shallow embedding of the versioned multi-client sync engine of the journal
server (src/server.py): record store, version gate, sync protocol handler,
conflict ledger and snapshot exporter, together with theorems checking the
specification's claims against this embedding.

Modelling conventions:
* JSON scalar values are `JVal`; a parsed JSON object is an association list
  `JDict` (Python dicts have unique keys; lookups use first-match semantics).
* SQLite tables are association lists keyed as in the schema; `aget`, `aset`
  and `aupdate` model `SELECT ... WHERE key = ?`, `INSERT ... ON CONFLICT DO
  UPDATE` / `INSERT OR REPLACE`, and `UPDATE ... WHERE key = ?`.
* Timestamps and dates stay `String`s, compared lexicographically exactly as
  SQLite compares TEXT columns; the clock (`get_utc_now`, and the computed
  seven-day retention cutoff) is passed in as an argument.
* A Python `None` (absent key or JSON null) is `Option.none` where the code
  distinguishes it; an unhandled exception (type error at a comparison,
  malformed composite key) makes the operation return `none`, matching the
  rollback / HTTP-500 with no committed mutation.
-/

/-- JSON scalar values as they appear in sync payloads and stored columns. -/
inductive JVal where
  | str (s : String)
  | num (n : Int)
  | bool (b : Bool)
  | null
deriving DecidableEq

/-- A parsed JSON object (a Python dict): keys with scalar values. -/
abbrev JDict := List (String × JVal)

/-- Python truthiness of a scalar value (the `None` case is handled by callers). -/
def truthy : JVal → Bool
  | JVal.str s => s != ""
  | JVal.num n => n != 0
  | JVal.bool b => b
  | JVal.null => false

/-- Lexicographic comparison of character lists, as SQLite compares TEXT
(memcmp order; a strict prefix sorts first). -/
def listLt : List Char → List Char → Bool
  | [], [] => false
  | [], _ :: _ => true
  | _ :: _, [] => false
  | a :: as, b :: bs =>
    if a.toNat < b.toNat then true
    else if b.toNat < a.toNat then false
    else listLt as bs

/-- Strict TEXT comparison of two stored strings. -/
def strLt (a b : String) : Bool := listLt a.data b.data

/-- Non-strict TEXT comparison. -/
def strLe (a b : String) : Bool := !(strLt b a)

/-- First-match association lookup, as a `SELECT ... WHERE key = ?` or a Python
dict access. -/
def aget {κ α : Type} [DecidableEq κ] : List (κ × α) → κ → Option α
  | [], _ => none
  | (k, v) :: t, key => if k = key then some v else aget t key

/-- Replace the binding of `key` (first occurrence) or append it: an SQL upsert
(`INSERT ... ON CONFLICT DO UPDATE` or `INSERT OR REPLACE`). -/
def aset {κ α : Type} [DecidableEq κ] : List (κ × α) → κ → α → List (κ × α)
  | [], key, v => [(key, v)]
  | (k, w) :: t, key, v => if k = key then (key, v) :: t else (k, w) :: aset t key v

/-- Update the binding of `key` in place if present, else do nothing: an SQL
`UPDATE ... WHERE key = ?` that may match no row. -/
def aupdate {κ α : Type} [DecidableEq κ] : List (κ × α) → κ → (α → α) → List (κ × α)
  | [], _, _ => []
  | (k, w) :: t, key, f => if k = key then (k, f w) :: t else (k, w) :: aupdate t key f

/-- `d.get(key)` in Python: `none` for both a missing key and a stored JSON
null (both are Python `None`). -/
def pyGet (d : JDict) (key : String) : Option JVal :=
  match aget d key with
  | some JVal.null => none
  | v => v

/-- `d.get(key, dflt)` in Python: the default only fires when the key is
absent; an explicit null still yields `None`. -/
def getOrDflt (d : JDict) (key : String) (dflt : JVal) : Option JVal :=
  match aget d key with
  | none => some dflt
  | some JVal.null => none
  | some v => some v

/-- `item.get("_baseVersion", 0)` as consumed by the integer comparison of the
version gate: absent means 0, a number is itself, a boolean is 0/1 (Python
bools are ints), and any other type makes the later `server_version >
client_base_version` comparison raise (modelled as `none`). -/
def getBaseVersion (d : JDict) : Option Int :=
  match aget d ("_baseVersion") with
  | none => some 0
  | some (JVal.num n) => some n
  | some (JVal.bool b) => some (if b then 1 else 0)
  | some _ => none

/-- Python `base.update(upd)` viewed as a dict: bindings of `upd` win, other
bindings of `base` survive. -/
def dmerge (base upd : JDict) : JDict :=
  base.filter (fun kv => (aget upd kv.1).isNone) ++ upd

/-- The reserved keys stripped from a tracker item before the remainder is
stored verbatim as the `meta_json` extension blob (src/server.py lines
429-431 and 569-571). -/
def excludedKeys : List String :=
  ["id", "name", "category", "type", "_version", "_baseVersion",
   "_lastModifiedBy", "_lastModifiedAt", "_deleted"]

/-- The extension blob of a pushed item: every field not in `excludedKeys`. -/
def metaOf (item : JDict) : JDict :=
  item.filter (fun kv => !(excludedKeys.contains kv.1))

/-- A nullable TEXT column rendered into a JSON output dict. -/
def optStrJ : Option String → JVal
  | none => JVal.null
  | some s => JVal.str s

/-- Python `x or 1` on the stored version (`row["version"] or 1`). -/
def orOne (v : Nat) : Int :=
  if v = 0 then 1 else (v : Int)

/-- `bool(row["completed"]) if row["completed"] is not None else None`. -/
def completedJ : Option Int → JVal
  | none => JVal.null
  | some n => JVal.bool (n != 0)

/-- A row of the `trackers` table. -/
structure TrackerRow where
  name : Option JVal
  category : Option JVal
  type : Option JVal
  meta : JDict
  version : Nat
  lastModifiedBy : Option String
  lastModifiedAt : Option String
  deleted : Bool
deriving DecidableEq

/-- A row of the `entries` table, keyed by `(date, tracker_id)`. -/
structure EntryRow where
  value : Option JVal
  completedInt : Option Int
  version : Nat
  lastModifiedBy : Option String
  lastModifiedAt : Option String
deriving DecidableEq

/-- A row of the `sync_conflicts` ledger. `serverData` is always `none`:
the one INSERT into this table does not list the `server_data` column. -/
structure ConflictRow where
  rowId : Nat
  entityType : String
  entityId : String
  clientId : String
  clientData : Option JDict
  serverData : Option JDict
  resolution : Option String
  resolvedAt : Option String
  createdAt : Option String
deriving DecidableEq

/-- A row of the `clients` table. -/
structure ClientRow where
  name : String
  lastSeenAt : String
deriving DecidableEq

/-- The whole database state. `metaSync` is the value stored under the key
`last_server_sync_time` of the `meta_sync` table (the global watermark). -/
structure DB where
  clients : List (String × ClientRow)
  metaSync : Option String
  trackers : List (Option JVal × TrackerRow)
  entries : List ((String × String) × EntryRow)
  syncConflicts : List ConflictRow
deriving DecidableEq

/-- The freshly initialised database. -/
def initDB : DB := ⟨[], none, [], [], []⟩

/-- The `ConflictInfo` response model: one rejected item of a push batch. -/
structure ConflictInfo where
  entityType : String
  entityId : Option JVal
  serverVersion : Nat
  clientBaseVersion : Int
  serverData : JDict
deriving DecidableEq

/-- The parsed body of `POST /api/sync/update`. -/
structure SyncPayload where
  clientId : String
  config : List JDict
  days : List (String × List (String × JDict))
  lastSyncTime : Option String
deriving DecidableEq

/-- The `SyncResponse` model returned by `sync_update`. -/
structure SyncResponse where
  success : Bool
  conflicts : List ConflictInfo
  appliedConfig : List JDict
  appliedDays : List (String × List (String × JDict))
  lastModified : Option String
  overwrittenData : List JDict
deriving DecidableEq

/-- `GET /api/sync/status`. -/
def sync_status (db : DB) : Option String := db.metaSync

/-- `POST /api/sync/register`: `client_name or f"Client-{client_id[:8]}"`. -/
def register_client (db : DB) (now clientId : String) (clientName : Option String) : DB :=
  let nm :=
    match clientName with
    | some s => if s = "" then ("Client-") ++ clientId.take 8 else s
    | none => ("Client-") ++ clientId.take 8
  { db with clients := aset db.clients clientId ⟨nm, now⟩ }

/-- The stored version of a tracker id, 0 when no row exists
(`row["version"] if row else 0`). -/
def trackerVersion (db : DB) (key : Option JVal) : Nat :=
  match aget db.trackers key with
  | some r => r.version
  | none => 0

/-- The stored version of an entry key, 0 when no row exists. -/
def entryVersion (db : DB) (key : String × String) : Nat :=
  match aget db.entries key with
  | some r => r.version
  | none => 0

/-- The `server_data` dict built for a tracker conflict (src/server.py lines
403-411): declared columns plus the `meta_json` fields merged on top. The
merge is unconditional because every row written by this code stores a JSON
object string (`"{}"` is truthy and merging an empty dict is the identity). -/
def trackerConflictData (trackerId : Option JVal) (r : TrackerRow) : JDict :=
  dmerge [("id", trackerId.getD JVal.null), ("name", r.name.getD JVal.null),
          ("category", r.category.getD JVal.null), ("type", r.type.getD JVal.null),
          ("_version", JVal.num r.version)] r.meta

/-- The item's `_deleted` flag under Python truthiness
(`item.get("_deleted", False)` then `if is_deleted:`). -/
def isDeletedFlag (item : JDict) : Bool :=
  (pyGet item ("_deleted")).elim false truthy

/-- The column updates of the tracker soft-delete
(`UPDATE trackers SET deleted = 1, version = ?, ... WHERE id = ?`). -/
def softDeleteTracker (clientId now : String) (nv : Nat) (r : TrackerRow) : TrackerRow :=
  { r with deleted := true, version := nv,
           lastModifiedBy := some clientId, lastModifiedAt := some now }

/-- The accepted-write half of a tracker item (src/server.py lines 422-462):
compute `new_version`, soft-delete or upsert, and report the applied item. -/
def applyTrackerWrite (clientId now : String) (db : DB) (item : JDict)
    (trackerId : Option JVal) (sv : Nat) : DB × Option ConflictInfo × Option JDict :=
  let nv := sv + 1
  let db2 :=
    if isDeletedFlag item then
      { db with trackers := aupdate db.trackers trackerId (softDeleteTracker clientId now nv) }
    else
      { db with trackers :=
          (aset db.trackers trackerId
            ⟨pyGet item ("name"), getOrDflt item ("category") (JVal.str ("")),
             getOrDflt item ("type") (JVal.str ("simple")), metaOf item, nv,
             some clientId, some now, false⟩) }
  (db2, none,
    some (dmerge item [("_version", JVal.num nv), ("_lastModifiedBy", JVal.str clientId),
                       ("_lastModifiedAt", JVal.str now)]))

/-- One tracker item of a push batch (src/server.py lines 388-462). The base
version is only compared (and can only raise a type error) when a row exists,
because `if row and server_version > client_base_version` short-circuits. -/
def applyTrackerItem (clientId now : String) (db : DB) (item : JDict) :
    Option (DB × Option ConflictInfo × Option JDict) :=
  match aget db.trackers (pyGet item ("id")) with
  | some r =>
    match getBaseVersion item with
    | none => none
    | some cbv =>
      if (r.version : Int) > cbv then
        some (db, some ⟨"tracker", pyGet item ("id"), r.version, cbv,
          trackerConflictData (pyGet item ("id")) r⟩, none)
      else
        some (applyTrackerWrite clientId now db item (pyGet item ("id")) r.version)
  | none => some (applyTrackerWrite clientId now db item (pyGet item ("id")) 0)

/-- The `server_data` dict built for an entry conflict (src/server.py lines
482-486). -/
def entryConflictData (r : EntryRow) : JDict :=
  [("value", r.value.getD JVal.null), ("completed", completedJ r.completedInt),
   ("_version", JVal.num r.version)]

/-- `1 if completed else 0 if completed is not None else None`. -/
def completedIntOf (data : JDict) : Option Int :=
  (pyGet data ("completed")).map (fun v => if truthy v then 1 else 0)

/-- The accepted-write half of an entry item (src/server.py lines 496-520). -/
def applyEntryWrite (clientId now date trackerId : String) (db : DB) (data : JDict)
    (sv : Nat) : DB × Option ConflictInfo × Option JDict :=
  let nv := sv + 1
  let value := pyGet data ("value")
  let db2 :=
    { db with entries := (aset db.entries (date, trackerId)
        ⟨value, completedIntOf data, nv, some clientId, some now⟩) }
  (db2, none,
    some [("value", value.getD JVal.null),
          ("completed", (pyGet data ("completed")).getD JVal.null),
          ("_version", JVal.num nv), ("_lastModifiedBy", JVal.str clientId),
          ("_lastModifiedAt", JVal.str now)])

/-- One entry item of a push batch (src/server.py lines 469-520). -/
def applyEntryItem (clientId now date trackerId : String) (db : DB) (data : JDict) :
    Option (DB × Option ConflictInfo × Option JDict) :=
  match aget db.entries (date, trackerId) with
  | some r =>
    match getBaseVersion data with
    | none => none
    | some cbv =>
      if (r.version : Int) > cbv then
        some (db, some ⟨"entry", some (JVal.str (date ++ ("|") ++ trackerId)), r.version, cbv,
          entryConflictData r⟩, none)
      else
        some (applyEntryWrite clientId now date trackerId db data r.version)
  | none => some (applyEntryWrite clientId now date trackerId db data 0)

/-- Phase 1 of `sync_update`: fold the tracker items in order, collecting
conflicts and applied items; any raised error aborts the whole batch. -/
def processConfig (clientId now : String) :
    DB → List JDict → Option (DB × List ConflictInfo × List JDict)
  | db, [] => some (db, [], [])
  | db, item :: rest =>
    (applyTrackerItem clientId now db item).bind (fun x =>
      (processConfig clientId now x.1 rest).map (fun y =>
        (y.1, x.2.1.toList ++ y.2.1, x.2.2.toList ++ y.2.2)))

/-- The entry items of one date of phase 2, in order. -/
def processEntryList (clientId now date : String) :
    DB → List (String × JDict) → Option (DB × List ConflictInfo × List (String × JDict))
  | db, [] => some (db, [], [])
  | db, (tid, data) :: rest =>
    (applyEntryItem clientId now date tid db data).bind (fun x =>
      (processEntryList clientId now date x.1 rest).map (fun y =>
        (y.1, x.2.1.toList ++ y.2.1, (x.2.2.map (fun a => (tid, a))).toList ++ y.2.2)))

/-- Phase 2 of `sync_update`: every date key of the payload is materialised in
`appliedDays` (possibly with an empty item list), as the code creates
`applied_days[date_str] = {}` before looking at the items. -/
def processDays (clientId now : String) :
    DB → List (String × List (String × JDict)) →
    Option (DB × List ConflictInfo × List (String × List (String × JDict)))
  | db, [] => some (db, [], [])
  | db, (date, items) :: rest =>
    (processEntryList clientId now date db items).bind (fun x =>
      (processDays clientId now x.1 rest).map (fun y =>
        (y.1, x.2.1 ++ y.2.1, (date, x.2.2) :: y.2.2)))

/-- `POST /api/sync/update` (src/server.py lines 367-542): update the client's
last-seen row, process both phases, advance the watermark only on a
conflict-free batch, and build the response. A `none` result is the
`except` branch: the transaction rolls back, nothing (including the client
row) is committed. -/
def sync_update (db : DB) (now : String) (p : SyncPayload) : Option (DB × SyncResponse) :=
  (processConfig p.clientId now
      { db with clients :=
          (aset db.clients p.clientId ⟨("Client-") ++ p.clientId.take 8, now⟩) }
      p.config).bind (fun x =>
    (processDays p.clientId now x.1 p.days).map (fun y =>
      ((if (x.2.1 ++ y.2.1).isEmpty then { y.1 with metaSync := some now } else y.1),
       ⟨(x.2.1 ++ y.2.1).isEmpty, x.2.1 ++ y.2.1, x.2.2, y.2.2,
        (if (x.2.1 ++ y.2.1).isEmpty then some now else none), []⟩)))

/-- Python truthiness of the optional `client_data` dict: `None` and the empty
dict are falsy. -/
def truthyDict : Option JDict → Bool
  | none => false
  | some [] => false
  | some (_ :: _) => true

/-- The force-apply half of `resolve_conflict` (src/server.py lines 559-597):
an `INSERT OR REPLACE` bumping the stored version by one, for either entity
type; a malformed composite entry id raises (`none`). -/
def resolveForced (db : DB) (now entityType entityId clientId : String)
    (cd : JDict) : Option DB :=
  if entityType == "tracker" then
    some { db with trackers := (aset db.trackers (some (JVal.str entityId))
      ⟨pyGet cd ("name"), getOrDflt cd ("category") (JVal.str ("")),
       getOrDflt cd ("type") (JVal.str ("simple")), metaOf cd,
       (match aget db.trackers (some (JVal.str entityId)) with
        | some r => r.version | none => 0) + 1,
       some clientId, some now, false⟩) }
  else if entityType == "entry" then
    match entityId.splitOn ("|") with
    | [dateStr, trackerId] =>
      some { db with entries := (aset db.entries (dateStr, trackerId)
        ⟨pyGet cd ("value"), completedIntOf cd,
         (match aget db.entries (dateStr, trackerId) with
          | some r => r.version | none => 0) + 1,
         some clientId, some now⟩) }
    | _ => none
  else some db

/-- `POST /api/sync/resolve-conflict` (src/server.py lines 545-616): an
unconditional force-apply when `resolution == "client"` and `client_data` is
truthy, then an append to the `sync_conflicts` ledger with `resolved_at`
stamped to now, then the watermark update. A `none` result is an unhandled
exception: nothing is committed. -/
def resolve_conflict (db : DB) (now entityType entityId resolution clientId : String)
    (clientData : Option JDict) : Option DB :=
  (if resolution == "client" && truthyDict clientData then
     resolveForced db now entityType entityId clientId (clientData.getD [])
   else some db).map (fun db1 =>
    { db1 with
      syncConflicts := (db1.syncConflicts ++
        [⟨db1.syncConflicts.length + 1, entityType, entityId, clientId,
          (if truthyDict clientData then clientData else none), none,
          some resolution, some now, some now⟩]),
      metaSync := some now })

/-- One element of the `GET /api/sync/conflicts` response. -/
structure ConflictOut where
  id : Nat
  entityType : String
  entityId : String
  clientData : Option JDict
  serverData : Option JDict
  createdAt : Option String
deriving DecidableEq

/-- `created_at` descending, as `ORDER BY created_at DESC`. -/
def createdGe (a b : ConflictOut) : Bool :=
  match a.createdAt, b.createdAt with
  | some x, some y => !(strLt x y)
  | some _, none => true
  | none, some _ => false
  | none, none => true

/-- Insertion step of the descending sort. -/
def insertDesc (x : ConflictOut) : List ConflictOut → List ConflictOut
  | [] => [x]
  | y :: t => if createdGe x y then x :: y :: t else y :: insertDesc x t

/-- Stable insertion sort, newest first. -/
def sortDesc : List ConflictOut → List ConflictOut
  | [] => []
  | x :: t => insertDesc x (sortDesc t)

/-- Projection of a ledger row into the response dict. -/
def conflictOut (c : ConflictRow) : ConflictOut :=
  ⟨c.rowId, c.entityType, c.entityId, c.clientData, c.serverData, c.createdAt⟩

/-- `GET /api/sync/conflicts` (src/server.py lines 619-642):
`WHERE client_id = ? AND resolved_at IS NULL ORDER BY created_at DESC`. -/
def get_unresolved_conflicts (db : DB) (clientId : String) : List ConflictOut :=
  sortDesc ((db.syncConflicts.filter
    (fun c => c.clientId == clientId && c.resolvedAt == none)).map conflictOut)

/-- `last_modified_at > ? OR last_modified_at IS NULL` over a TEXT column. -/
def modifiedAfter (lma : Option String) (since : String) : Bool :=
  match lma with
  | none => true
  | some t => strLt since t

/-- The flat tracker dict of a snapshot: declared columns plus the
extension blob merged on top (src/server.py lines 256-271 and 316-332). -/
def trackerOut (key : Option JVal) (r : TrackerRow) : JDict :=
  dmerge [("id", key.getD JVal.null), ("name", r.name.getD JVal.null),
          ("category", r.category.getD JVal.null), ("type", r.type.getD JVal.null),
          ("_version", JVal.num (orOne r.version)),
          ("_lastModifiedBy", optStrJ r.lastModifiedBy),
          ("_lastModifiedAt", optStrJ r.lastModifiedAt)] r.meta

/-- The per-entry dict of a snapshot. -/
def entryOut (r : EntryRow) : JDict :=
  [("value", r.value.getD JVal.null), ("completed", completedJ r.completedInt),
   ("_version", JVal.num (orOne r.version)),
   ("_lastModifiedBy", optStrJ r.lastModifiedBy),
   ("_lastModifiedAt", optStrJ r.lastModifiedAt)]

/-- One step of grouping entry rows: `days[date][tracker_id] = ...`. -/
def buildDaysStep (acc : List (String × List (String × JDict)))
    (kr : (String × String) × EntryRow) : List (String × List (String × JDict)) :=
  aset acc kr.1.1 (aset ((aget acc kr.1.1).getD []) kr.1.2 (entryOut kr.2))

/-- Group entry rows into the `days` response shape
(`days[date][tracker_id] = ...` in iteration order). -/
def buildDays (rows : List ((String × String) × EntryRow)) :
    List (String × List (String × JDict)) :=
  rows.foldl buildDaysStep []

/-- Lookup `days[date][tracker_id]` in a grouped response. -/
def days2get (days : List (String × List (String × JDict))) (date tid : String) :
    Option JDict :=
  (aget days date).bind (fun m => aget m tid)

/-- The `FullSyncResponse` model. -/
structure FullResp where
  config : List JDict
  days : List (String × List (String × JDict))
  serverTime : String
deriving DecidableEq

/-- `GET /api/sync/full` (src/server.py lines 246-298): every tracker with
`deleted = 0 OR deleted IS NULL`, and the entries with `date >=` the
seven-day cutoff. -/
def sync_full (db : DB) (sevenDaysAgo now : String) : FullResp :=
  ⟨(db.trackers.filter (fun kr => !kr.2.deleted)).map (fun kr => trackerOut kr.1 kr.2),
   buildDays (db.entries.filter (fun kr => strLe sevenDaysAgo kr.1.1)),
   now⟩

/-- The `DeltaSyncResponse` model. -/
structure DeltaResp where
  config : List JDict
  days : List (String × List (String × JDict))
  deletedTrackers : List (Option JVal)
  serverTime : String
deriving DecidableEq

/-- `GET /api/sync/delta` (src/server.py lines 301-364): trackers modified
strictly after `since` or never stamped, partitioned into live upserts and
tombstone ids in one pass; entries with the same modification filter
restricted to the retention window. -/
def sync_delta (db : DB) (since _clientId sevenDaysAgo now : String) : DeltaResp :=
  let rows := db.trackers.filter (fun kr => modifiedAfter kr.2.lastModifiedAt since)
  ⟨(rows.filter (fun kr => !kr.2.deleted)).map (fun kr => trackerOut kr.1 kr.2),
   buildDays (db.entries.filter (fun kr =>
     modifiedAfter kr.2.lastModifiedAt since && strLe sevenDaysAgo kr.1.1)),
   (rows.filter (fun kr => kr.2.deleted)).map (fun kr => kr.1),
   now⟩

/-- One state transition of the server: any of the three mutating endpoints
succeeding. -/
inductive DBStep : DB → DB → Prop where
  | register (db : DB) (now clientId : String) (clientName : Option String) :
      DBStep db (register_client db now clientId clientName)
  | update (db db2 : DB) (now : String) (p : SyncPayload) (r : SyncResponse) :
      sync_update db now p = some (db2, r) → DBStep db db2
  | resolve (db db2 : DB) (now entityType entityId resolution clientId : String)
      (clientData : Option JDict) :
      resolve_conflict db now entityType entityId resolution clientId clientData = some db2 →
      DBStep db db2

/-- States reachable from the freshly initialised database. -/
inductive DBReachable : DB → Prop where
  | init : DBReachable initDB
  | step (db db2 : DB) : DBReachable db → DBStep db db2 → DBReachable db2

/-- Keys of an association list are pairwise distinct (true of every SQL table
keyed by a primary key). -/
abbrev keysNodup {κ α : Type} (l : List (κ × α)) : Prop :=
  (l.map (fun kv => kv.1)).Nodup

/-! Concrete inputs used by witnesses and counterexamples. -/

/-- A pushed tracker with the extension fields goal = 10, unit = "km". -/
def itemT1 : JDict :=
  [("id", JVal.str ("t1")), ("name", JVal.str ("A")),
   ("goal", JVal.num 10), ("unit", JVal.str ("km"))]

/-- A stale push of t1 (base version 0 against a stored version 1). -/
def staleItem : JDict :=
  [("id", JVal.str ("t1")), ("name", JVal.str ("B")), ("_baseVersion", JVal.num 0)]

/-- A clean create of a second tracker t2. -/
def cleanItem2 : JDict :=
  [("id", JVal.str ("t2")), ("name", JVal.str ("C"))]

/-- A soft-delete item for an id that does not exist in the store. -/
def delItem : JDict :=
  [("id", JVal.str ("tx")), ("_deleted", JVal.bool true)]

/-- The batch that creates t1. -/
def pCreate : SyncPayload := ⟨"c1", [itemT1], [], none⟩

/-- A batch with one stale (conflicting) item and one clean item. -/
def pMixed : SyncPayload := ⟨"c2", [staleItem, cleanItem2], [], none⟩

/-- The batch containing only the soft-delete of the nonexistent id. -/
def pDel : SyncPayload := ⟨"c1", [delItem], [], none⟩

/-- Client-chosen data used when forcing a conflict resolution. -/
def cdB : JDict := [("name", JVal.str ("B")), ("goal", JVal.num 12)]

/-- The stored row of t1 after `pCreate` is applied to the fresh database. -/
def rowT1 : TrackerRow :=
  ⟨some (JVal.str ("A")), some (JVal.str ("")), some (JVal.str ("simple")),
   [("goal", JVal.num 10), ("unit", JVal.str ("km"))], 1, some ("c1"), some ("T1"), false⟩

/-- The database state after `pCreate` is applied to the fresh database. -/
def dbT1 : DB :=
  ⟨[(("c1"), ⟨("Client-c1"), ("T1")⟩)], some ("T1"),
   [(some (JVal.str ("t1")), rowT1)], [], []⟩

/-- The database after `pCreate` as produced by `applyTrackerItem` alone
(no client bookkeeping). -/
def dbCreateItem : DB := ⟨[], none, [(some (JVal.str ("t1")), rowT1)], [], []⟩

/-- The result of pushing the mixed (one stale, one clean) batch against
`dbT1`. -/
def mixedRes : DB × SyncResponse :=
  (sync_update dbT1 ("T2") pMixed).getD (initDB, ⟨true, [], [], [], none, []⟩)

/-- The result of pushing the soft-delete-of-nonexistent batch against the
fresh database. -/
def delRes : DB × SyncResponse :=
  (sync_update initDB ("T1") pDel).getD (initDB, ⟨true, [], [], [], none, []⟩)

/-- The database after one client-forced resolution of t1 against `dbT1`. -/
def dbRes1 : DB :=
  (resolve_conflict dbT1 ("T2") ("tracker") ("t1") ("client") ("cB") (some cdB)).getD initDB

/-- The database after resolving the same conflict a second time. -/
def dbRes2 : DB :=
  (resolve_conflict dbRes1 ("T3") ("tracker") ("t1") ("client") ("cB") (some cdB)).getD initDB

/-- The database after a server-side resolution on the fresh database. -/
def dbResolveOnly : DB :=
  (resolve_conflict initDB ("T1") ("tracker") ("t1") ("server") ("c1") none).getD initDB

/-- A stored entry row at version 1. -/
def rowE1 : EntryRow := ⟨some (JVal.num 5), some 1, 1, some ("c1"), some ("T1")⟩

/-- `dbT1` extended with one stored entry. -/
def dbT1E : DB := { dbT1 with entries := [((("2024-01-05"), ("t1")), rowE1)] }

/-- A soft-deleted tracker row (a tombstone) at version 2. -/
def rowDel : TrackerRow :=
  ⟨some (JVal.str ("D")), some (JVal.str ("")), some (JVal.str ("simple")), [], 2,
   some ("c1"), some ("T2"), true⟩

/-- A database holding one live tracker, one tombstone and one entry. -/
def dbDelta : DB :=
  ⟨[], none, [(some (JVal.str ("t1")), rowT1), (some (JVal.str ("t2")), rowDel)],
   [((("2024-01-05"), ("t1")), rowE1)], []⟩

/-- The conflict reported for `staleItem` against `dbT1`. -/
def staleCf : ConflictInfo :=
  ⟨"tracker", some (JVal.str ("t1")), 1, 0,
   trackerConflictData (some (JVal.str ("t1"))) rowT1⟩

/-- A stale entry push (base version 0 against stored version 1). -/
def entryData0 : JDict := [("value", JVal.num 7), ("_baseVersion", JVal.num 0)]

/-- The conflict reported for `entryData0` against `dbT1E`. -/
def entryCf : ConflictInfo :=
  ⟨"entry", some (JVal.str (("2024-01-05") ++ ("|") ++ ("t1"))), 1, 0,
   entryConflictData rowE1⟩

/-! Association-list lemmas. -/

theorem aget_aset_self {κ α : Type} [DecidableEq κ] (l : List (κ × α)) (k : κ) (v : α) :
    aget (aset l k v) k = some v := by
  induction l with
  | nil => simp [aget, aset]
  | cons hd t ih =>
    obtain ⟨k', w⟩ := hd
    by_cases hk : k' = k <;> simp [aset, aget, hk, ih]

theorem aget_aset_ne {κ α : Type} [DecidableEq κ] (l : List (κ × α)) (k k' : κ) (v : α)
    (hne : k ≠ k') : aget (aset l k v) k' = aget l k' := by
  induction l with
  | nil => simp [aget, aset, hne]
  | cons hd t ih =>
    obtain ⟨k0, w⟩ := hd
    by_cases hk : k0 = k <;> simp [aset, aget, hk, hne, ih]

theorem aget_aupdate_self {κ α : Type} [DecidableEq κ] (l : List (κ × α)) (k : κ)
    (f : α → α) : aget (aupdate l k f) k = (aget l k).map f := by
  induction l with
  | nil => simp [aget, aupdate]
  | cons hd t ih =>
    obtain ⟨k0, w⟩ := hd
    by_cases hk : k0 = k <;> simp [aupdate, aget, hk, ih]

theorem aget_aupdate_ne {κ α : Type} [DecidableEq κ] (l : List (κ × α)) (k k' : κ)
    (f : α → α) (hne : k ≠ k') : aget (aupdate l k f) k' = aget l k' := by
  induction l with
  | nil => simp [aupdate]
  | cons hd t ih =>
    obtain ⟨k0, w⟩ := hd
    by_cases hk : k0 = k <;> by_cases hk' : k0 = k' <;>
      simp_all [aupdate, aget, hk, hk', ih]

theorem aupdate_of_aget_none {κ α : Type} [DecidableEq κ] (l : List (κ × α)) (k : κ)
    (f : α → α) (h : aget l k = none) : aupdate l k f = l := by
  induction l with
  | nil => simp [aupdate]
  | cons hd t ih =>
    obtain ⟨k0, w⟩ := hd
    by_cases hk : k0 = k
    · simp [aget, hk] at h
    · simp [aget, hk] at h
      simp [aupdate, hk, ih h]

theorem aget_mem {κ α : Type} [DecidableEq κ] {l : List (κ × α)} {k : κ} {v : α}
    (h : aget l k = some v) : (k, v) ∈ l := by
  induction l with
  | nil => simp [aget] at h
  | cons hd t ih =>
    obtain ⟨k0, w⟩ := hd
    by_cases hk : k0 = k
    · subst hk
      simp [aget] at h
      simp [h]
    · simp [aget, hk] at h
      simp [ih h]

theorem aget_eq_none_of_not_mem_keys {κ α : Type} [DecidableEq κ] {l : List (κ × α)}
    {k : κ} (h : k ∉ l.map (fun kv => kv.1)) : aget l k = none := by
  induction l with
  | nil => simp [aget]
  | cons hd t ih =>
    obtain ⟨k0, w⟩ := hd
    rw [List.map_cons, List.mem_cons] at h
    push_neg at h
    have hk : ¬ k0 = k := fun hh => h.1 hh.symm
    simp [aget, hk, ih h.2]

theorem mem_aget {κ α : Type} [DecidableEq κ] {l : List (κ × α)} {k : κ} {v : α}
    (hnd : keysNodup l) (h : (k, v) ∈ l) : aget l k = some v := by
  induction l with
  | nil => simp at h
  | cons hd t ih =>
    obtain ⟨k0, w⟩ := hd
    have hnd2 : (∀ x : α, (k0, x) ∉ t) ∧ keysNodup t := by
      simpa [keysNodup] using hnd
    rcases List.mem_cons.mp h with heq | hmem
    · injection heq with h1 h2
      subst h1
      subst h2
      simp [aget]
    · have hk : k0 ≠ k := by
        intro hk0
        subst hk0
        exact hnd2.1 v hmem
      simp [aget, hk, ih hnd2.2 hmem]

theorem nodup_key_unique {κ α : Type} [DecidableEq κ] {l : List (κ × α)} {k : κ}
    {a b : α} (hnd : keysNodup l) (ha : (k, a) ∈ l) (hb : (k, b) ∈ l) : a = b := by
  have h1 := mem_aget hnd ha
  have h2 := mem_aget hnd hb
  rw [h1] at h2
  exact Option.some_inj.mp h2

theorem aget_filter_key {κ α : Type} [DecidableEq κ] (p : κ → Bool) (l : List (κ × α))
    (k : κ) : aget (l.filter (fun kv => p kv.1)) k = if p k then aget l k else none := by
  induction l with
  | nil => simp [aget]
  | cons hd t ih =>
    obtain ⟨k0, w⟩ := hd
    by_cases hp : p k0 <;> by_cases hk : k0 = k <;>
      simp_all [List.filter_cons, aget, hp, hk, ih]

theorem aget_append_some {κ α : Type} [DecidableEq κ] {l1 : List (κ × α)}
    (l2 : List (κ × α)) {k : κ} {v : α} (h : aget l1 k = some v) :
    aget (l1 ++ l2) k = some v := by
  induction l1 with
  | nil => simp [aget] at h
  | cons hd t ih =>
    obtain ⟨k0, w⟩ := hd
    by_cases hk : k0 = k <;> simp_all [aget, hk]

theorem aget_append_none {κ α : Type} [DecidableEq κ] {l1 : List (κ × α)}
    (l2 : List (κ × α)) {k : κ} (h : aget l1 k = none) :
    aget (l1 ++ l2) k = aget l2 k := by
  induction l1 with
  | nil => simp [aget]
  | cons hd t ih =>
    obtain ⟨k0, w⟩ := hd
    by_cases hk : k0 = k <;> simp_all [aget, hk]

theorem aget_dmerge (base upd : JDict) (k : String) :
    aget (dmerge base upd) k =
      if (aget upd k).isSome then aget upd k else aget base k := by
  unfold dmerge
  have hf := aget_filter_key (fun key => (aget upd key).isNone) base k
  cases h : aget upd k with
  | some v =>
    simp only [h, Option.isNone_some, if_false, Bool.false_eq_true] at hf
    simp [aget_append_none _ hf, h]
  | none =>
    simp only [h, Option.isNone_none, if_true] at hf
    cases hfb : aget (base.filter (fun kv => (aget upd kv.1).isNone)) k with
    | some w =>
      rw [aget_append_some _ hfb]
      rw [hf] at hfb
      simp [hfb]
    | none =>
      rw [aget_append_none _ hfb, h]
      rw [hf] at hfb
      simp [hfb]

/-! Lookup characterisation of the grouped `days` output. -/

theorem days2get_buildDaysStep_ne (acc : List (String × List (String × JDict)))
    (kr : (String × String) × EntryRow) (d t : String) (hne : kr.1 ≠ (d, t)) :
    days2get (buildDaysStep acc kr) d t = days2get acc d t := by
  obtain ⟨⟨d0, t0⟩, r0⟩ := kr
  unfold buildDaysStep days2get
  by_cases hd : d0 = d
  · subst hd
    have ht : t0 ≠ t := by
      intro ht
      exact hne (by simp [ht])
    rw [aget_aset_self]
    cases hacc : aget acc d0 with
    | some m => simp [hacc, aget_aset_ne _ _ _ _ ht]
    | none => simp [hacc, aget, ht]
  · rw [aget_aset_ne _ _ _ _ hd]

theorem foldl_buildDaysStep_none (d t : String) :
    ∀ (rows : List ((String × String) × EntryRow)), aget rows (d, t) = none →
    ∀ acc, days2get (rows.foldl buildDaysStep acc) d t = days2get acc d t := by
  intro rows
  induction rows with
  | nil => intro _ acc; rfl
  | cons kr rest ih =>
    intro h acc
    obtain ⟨⟨d0, t0⟩, r0⟩ := kr
    by_cases hk : (d0, t0) = (d, t)
    · simp [aget, hk] at h
    · simp only [aget, hk, if_false] at h
      rw [List.foldl_cons, ih h, days2get_buildDaysStep_ne _ _ _ _ hk]

theorem foldl_buildDaysStep_some (d t : String) :
    ∀ (rows : List ((String × String) × EntryRow)), keysNodup rows →
    ∀ (r : EntryRow), aget rows (d, t) = some r →
    ∀ acc, days2get (rows.foldl buildDaysStep acc) d t = some (entryOut r) := by
  intro rows
  induction rows with
  | nil => intro _ r h; simp [aget] at h
  | cons kr rest ih =>
    intro hnd r h acc
    obtain ⟨⟨d0, t0⟩, r0⟩ := kr
    have hnd2 : (∀ x : EntryRow, ((d0, t0), x) ∉ rest) ∧ keysNodup rest := by
      simpa [keysNodup] using hnd
    by_cases hk : (d0, t0) = (d, t)
    · injection hk with h1 h2
      subst h1
      subst h2
      obtain rfl : r0 = r := by simpa [aget] using h
      have hrest : aget rest (d0, t0) = none := by
        apply aget_eq_none_of_not_mem_keys
        intro hmem
        obtain ⟨⟨key, x⟩, hx, hkey⟩ := List.mem_map.mp hmem
        dsimp at hkey
        subst hkey
        exact hnd2.1 x hx
      rw [List.foldl_cons, foldl_buildDaysStep_none d0 t0 rest hrest]
      unfold buildDaysStep days2get
      simp [aget_aset_self]
    · simp only [aget, hk, if_false] at h
      rw [List.foldl_cons, ih hnd2.2 r h]

theorem buildDays_days2get (rows : List ((String × String) × EntryRow))
    (hnd : keysNodup rows) (d t : String) :
    days2get (buildDays rows) d t = (aget rows (d, t)).map entryOut := by
  unfold buildDays
  cases h : aget rows (d, t) with
  | some r =>
    rw [foldl_buildDaysStep_some d t rows hnd r h []]
    rfl
  | none =>
    rw [foldl_buildDaysStep_none d t rows h []]
    rfl

/-! Shape and frame lemmas for the per-item processing of a push batch. -/

theorem applyTrackerWrite_shape (c n : String) (db : DB) (item : JDict)
    (tid : Option JVal) (sv : Nat) :
    applyTrackerWrite c n db item tid sv =
      ({ db with trackers :=
          (if isDeletedFlag item then
            aupdate db.trackers tid (softDeleteTracker c n (sv + 1))
          else
            aset db.trackers tid
              ⟨pyGet item ("name"), getOrDflt item ("category") (JVal.str ("")),
               getOrDflt item ("type") (JVal.str ("simple")), metaOf item, sv + 1,
               some c, some n, false⟩) },
       none,
       some (dmerge item [("_version", JVal.num (sv + 1)), ("_lastModifiedBy", JVal.str c),
                          ("_lastModifiedAt", JVal.str n)])) := by
  unfold applyTrackerWrite
  by_cases h : isDeletedFlag item <;> simp [h]

theorem applyTrackerItem_of_none {c n : String} {db : DB} {item : JDict}
    (heq : aget db.trackers (pyGet item ("id")) = none) :
    applyTrackerItem c n db item =
      some (applyTrackerWrite c n db item (pyGet item ("id")) 0) := by
  unfold applyTrackerItem
  rw [heq]

theorem applyTrackerItem_of_badBase {c n : String} {db : DB} {item : JDict} {r : TrackerRow}
    (heq : aget db.trackers (pyGet item ("id")) = some r)
    (hbv : getBaseVersion item = none) :
    applyTrackerItem c n db item = none := by
  unfold applyTrackerItem
  rw [heq, hbv]

theorem applyTrackerItem_of_gt {c n : String} {db : DB} {item : JDict} {r : TrackerRow}
    {cbv : Int} (heq : aget db.trackers (pyGet item ("id")) = some r)
    (hbv : getBaseVersion item = some cbv) (hgt : (r.version : Int) > cbv) :
    applyTrackerItem c n db item =
      some (db, some ⟨"tracker", pyGet item ("id"), r.version, cbv,
        trackerConflictData (pyGet item ("id")) r⟩, none) := by
  unfold applyTrackerItem
  rw [heq, hbv]
  exact if_pos hgt

theorem applyTrackerItem_of_le {c n : String} {db : DB} {item : JDict} {r : TrackerRow}
    {cbv : Int} (heq : aget db.trackers (pyGet item ("id")) = some r)
    (hbv : getBaseVersion item = some cbv) (hle : ¬ ((r.version : Int) > cbv)) :
    applyTrackerItem c n db item =
      some (applyTrackerWrite c n db item (pyGet item ("id")) r.version) := by
  unfold applyTrackerItem
  rw [heq, hbv]
  exact if_neg hle

theorem applyTrackerItem_conflict_inv {c n : String} {db : DB} {item : JDict}
    {db1 : DB} {cf : ConflictInfo} {ap : Option JDict}
    (h : applyTrackerItem c n db item = some (db1, some cf, ap)) :
    db1 = db ∧ ap = none ∧
    ∃ r cbv, aget db.trackers (pyGet item ("id")) = some r ∧
      getBaseVersion item = some cbv ∧ ((r.version : Int) > cbv) ∧
      cf = ⟨"tracker", pyGet item ("id"), r.version, cbv,
            trackerConflictData (pyGet item ("id")) r⟩ := by
  cases heq : aget db.trackers (pyGet item ("id")) with
  | none =>
    rw [applyTrackerItem_of_none heq, applyTrackerWrite_shape] at h
    simp at h
  | some r =>
    cases hbv : getBaseVersion item with
    | none =>
      rw [applyTrackerItem_of_badBase heq hbv] at h
      simp at h
    | some cbv =>
      by_cases hgt : (r.version : Int) > cbv
      · rw [applyTrackerItem_of_gt heq hbv hgt] at h
        obtain ⟨h1, h2, h3⟩ : db = db1 ∧ some _ = some cf ∧ none = ap := by simpa using h
        exact ⟨h1.symm, h3.symm, r, cbv, rfl, rfl, hgt, (Option.some_inj.mp h2).symm⟩
      · rw [applyTrackerItem_of_le heq hbv hgt, applyTrackerWrite_shape] at h
        simp at h

theorem applyTrackerItem_applied_inv {c n : String} {db : DB} {item : JDict}
    {db1 : DB} {a : JDict}
    (h : applyTrackerItem c n db item = some (db1, none, some a)) :
    db1 = { db with trackers :=
        (if isDeletedFlag item then
          aupdate db.trackers (pyGet item ("id"))
            (softDeleteTracker c n (trackerVersion db (pyGet item ("id")) + 1))
        else
          aset db.trackers (pyGet item ("id"))
            ⟨pyGet item ("name"), getOrDflt item ("category") (JVal.str ("")),
             getOrDflt item ("type") (JVal.str ("simple")), metaOf item,
             trackerVersion db (pyGet item ("id")) + 1, some c, some n, false⟩) } ∧
    a = dmerge item [("_version", JVal.num (trackerVersion db (pyGet item ("id")) + 1)),
                     ("_lastModifiedBy", JVal.str c), ("_lastModifiedAt", JVal.str n)] := by
  cases heq : aget db.trackers (pyGet item ("id")) with
  | none =>
    rw [applyTrackerItem_of_none heq, applyTrackerWrite_shape] at h
    have hv : trackerVersion db (pyGet item ("id")) = 0 := by
      simp [trackerVersion, heq]
    obtain ⟨h1, h2⟩ : _ ∧ some _ = some a := by simpa using h
    rw [hv]
    exact ⟨h1.symm, (Option.some_inj.mp h2).symm⟩
  | some r =>
    cases hbv : getBaseVersion item with
    | none =>
      rw [applyTrackerItem_of_badBase heq hbv] at h
      simp at h
    | some cbv =>
      by_cases hgt : (r.version : Int) > cbv
      · rw [applyTrackerItem_of_gt heq hbv hgt] at h
        simp at h
      · rw [applyTrackerItem_of_le heq hbv hgt, applyTrackerWrite_shape] at h
        have hv : trackerVersion db (pyGet item ("id")) = r.version := by
          simp [trackerVersion, heq]
        obtain ⟨h1, h2⟩ : _ ∧ some _ = some a := by simpa using h
        rw [hv]
        exact ⟨h1.symm, (Option.some_inj.mp h2).symm⟩

theorem applyEntryWrite_shape (c n date tid : String) (db : DB) (data : JDict) (sv : Nat) :
    applyEntryWrite c n date tid db data sv =
      ({ db with entries := (aset db.entries (date, tid)
          ⟨pyGet data ("value"), completedIntOf data, sv + 1, some c, some n⟩) },
       none,
       some [("value", (pyGet data ("value")).getD JVal.null),
             ("completed", (pyGet data ("completed")).getD JVal.null),
             ("_version", JVal.num (sv + 1)), ("_lastModifiedBy", JVal.str c),
             ("_lastModifiedAt", JVal.str n)]) := by
  unfold applyEntryWrite
  rfl

theorem applyEntryItem_of_none {c n date tid : String} {db : DB} {data : JDict}
    (heq : aget db.entries (date, tid) = none) :
    applyEntryItem c n date tid db data = some (applyEntryWrite c n date tid db data 0) := by
  unfold applyEntryItem
  rw [heq]

theorem applyEntryItem_of_badBase {c n date tid : String} {db : DB} {data : JDict}
    {r : EntryRow} (heq : aget db.entries (date, tid) = some r)
    (hbv : getBaseVersion data = none) :
    applyEntryItem c n date tid db data = none := by
  unfold applyEntryItem
  rw [heq, hbv]

theorem applyEntryItem_of_gt {c n date tid : String} {db : DB} {data : JDict}
    {r : EntryRow} {cbv : Int} (heq : aget db.entries (date, tid) = some r)
    (hbv : getBaseVersion data = some cbv) (hgt : (r.version : Int) > cbv) :
    applyEntryItem c n date tid db data =
      some (db, some ⟨"entry", some (JVal.str (date ++ ("|") ++ tid)), r.version, cbv,
        entryConflictData r⟩, none) := by
  unfold applyEntryItem
  rw [heq, hbv]
  exact if_pos hgt

theorem applyEntryItem_of_le {c n date tid : String} {db : DB} {data : JDict}
    {r : EntryRow} {cbv : Int} (heq : aget db.entries (date, tid) = some r)
    (hbv : getBaseVersion data = some cbv) (hle : ¬ ((r.version : Int) > cbv)) :
    applyEntryItem c n date tid db data =
      some (applyEntryWrite c n date tid db data r.version) := by
  unfold applyEntryItem
  rw [heq, hbv]
  exact if_neg hle

theorem applyEntryItem_conflict_inv {c n date tid : String} {db : DB} {data : JDict}
    {db1 : DB} {cf : ConflictInfo} {ap : Option JDict}
    (h : applyEntryItem c n date tid db data = some (db1, some cf, ap)) :
    db1 = db ∧ ap = none ∧
    ∃ r cbv, aget db.entries (date, tid) = some r ∧
      getBaseVersion data = some cbv ∧ ((r.version : Int) > cbv) ∧
      cf = ⟨"entry", some (JVal.str (date ++ ("|") ++ tid)), r.version, cbv,
            entryConflictData r⟩ := by
  cases heq : aget db.entries (date, tid) with
  | none =>
    rw [applyEntryItem_of_none heq, applyEntryWrite_shape] at h
    simp at h
  | some r =>
    cases hbv : getBaseVersion data with
    | none =>
      rw [applyEntryItem_of_badBase heq hbv] at h
      simp at h
    | some cbv =>
      by_cases hgt : (r.version : Int) > cbv
      · rw [applyEntryItem_of_gt heq hbv hgt] at h
        obtain ⟨h1, h2, h3⟩ : db = db1 ∧ some _ = some cf ∧ none = ap := by simpa using h
        exact ⟨h1.symm, h3.symm, r, cbv, rfl, rfl, hgt, (Option.some_inj.mp h2).symm⟩
      · rw [applyEntryItem_of_le heq hbv hgt, applyEntryWrite_shape] at h
        simp at h

theorem applyEntryItem_applied_inv {c n date tid : String} {db : DB} {data : JDict}
    {db1 : DB} {a : JDict}
    (h : applyEntryItem c n date tid db data = some (db1, none, some a)) :
    db1 = { db with entries := (aset db.entries (date, tid)
        ⟨pyGet data ("value"), completedIntOf data, entryVersion db (date, tid) + 1,
         some c, some n⟩) } ∧
    a = [("value", (pyGet data ("value")).getD JVal.null),
         ("completed", (pyGet data ("completed")).getD JVal.null),
         ("_version", JVal.num (entryVersion db (date, tid) + 1)),
         ("_lastModifiedBy", JVal.str c), ("_lastModifiedAt", JVal.str n)] := by
  cases heq : aget db.entries (date, tid) with
  | none =>
    rw [applyEntryItem_of_none heq, applyEntryWrite_shape] at h
    have hv : entryVersion db (date, tid) = 0 := by
      simp [entryVersion, heq]
    obtain ⟨h1, h2⟩ : _ ∧ some _ = some a := by simpa using h
    rw [hv]
    exact ⟨h1.symm, (Option.some_inj.mp h2).symm⟩
  | some r =>
    cases hbv : getBaseVersion data with
    | none =>
      rw [applyEntryItem_of_badBase heq hbv] at h
      simp at h
    | some cbv =>
      by_cases hgt : (r.version : Int) > cbv
      · rw [applyEntryItem_of_gt heq hbv hgt] at h
        simp at h
      · rw [applyEntryItem_of_le heq hbv hgt, applyEntryWrite_shape] at h
        have hv : entryVersion db (date, tid) = r.version := by
          simp [entryVersion, heq]
        obtain ⟨h1, h2⟩ : _ ∧ some _ = some a := by simpa using h
        rw [hv]
        exact ⟨h1.symm, (Option.some_inj.mp h2).symm⟩

theorem applyTrackerItem_some_shape {c n : String} {db : DB} {item : JDict}
    {db1 : DB} {cf : Option ConflictInfo} {ap : Option JDict}
    (h : applyTrackerItem c n db item = some (db1, cf, ap)) :
    (ap = none ∧ ∃ c0, cf = some c0) ∨ (cf = none ∧ ∃ a, ap = some a) := by
  cases heq : aget db.trackers (pyGet item ("id")) with
  | none =>
    rw [applyTrackerItem_of_none heq, applyTrackerWrite_shape] at h
    obtain ⟨-, h2, h3⟩ : _ ∧ none = cf ∧ some _ = ap := by simpa using h
    exact Or.inr ⟨h2.symm, _, h3.symm⟩
  | some r =>
    cases hbv : getBaseVersion item with
    | none =>
      rw [applyTrackerItem_of_badBase heq hbv] at h
      simp at h
    | some cbv =>
      by_cases hgt : (r.version : Int) > cbv
      · rw [applyTrackerItem_of_gt heq hbv hgt] at h
        obtain ⟨-, h2, h3⟩ : _ ∧ some _ = cf ∧ none = ap := by simpa using h
        exact Or.inl ⟨h3.symm, _, h2.symm⟩
      · rw [applyTrackerItem_of_le heq hbv hgt, applyTrackerWrite_shape] at h
        obtain ⟨-, h2, h3⟩ : _ ∧ none = cf ∧ some _ = ap := by simpa using h
        exact Or.inr ⟨h2.symm, _, h3.symm⟩

theorem applyEntryItem_some_shape {c n date tid : String} {db : DB} {data : JDict}
    {db1 : DB} {cf : Option ConflictInfo} {ap : Option JDict}
    (h : applyEntryItem c n date tid db data = some (db1, cf, ap)) :
    (ap = none ∧ ∃ c0, cf = some c0) ∨ (cf = none ∧ ∃ a, ap = some a) := by
  cases heq : aget db.entries (date, tid) with
  | none =>
    rw [applyEntryItem_of_none heq, applyEntryWrite_shape] at h
    obtain ⟨-, h2, h3⟩ : _ ∧ none = cf ∧ some _ = ap := by simpa using h
    exact Or.inr ⟨h2.symm, _, h3.symm⟩
  | some r =>
    cases hbv : getBaseVersion data with
    | none =>
      rw [applyEntryItem_of_badBase heq hbv] at h
      simp at h
    | some cbv =>
      by_cases hgt : (r.version : Int) > cbv
      · rw [applyEntryItem_of_gt heq hbv hgt] at h
        obtain ⟨-, h2, h3⟩ : _ ∧ some _ = cf ∧ none = ap := by simpa using h
        exact Or.inl ⟨h3.symm, _, h2.symm⟩
      · rw [applyEntryItem_of_le heq hbv hgt, applyEntryWrite_shape] at h
        obtain ⟨-, h2, h3⟩ : _ ∧ none = cf ∧ some _ = ap := by simpa using h
        exact Or.inr ⟨h2.symm, _, h3.symm⟩

theorem applyTrackerItem_frame {c n : String} {db : DB} {item : JDict}
    {db1 : DB} {cf : Option ConflictInfo} {ap : Option JDict}
    (h : applyTrackerItem c n db item = some (db1, cf, ap)) :
    db1.clients = db.clients ∧ db1.metaSync = db.metaSync ∧
    db1.entries = db.entries ∧ db1.syncConflicts = db.syncConflicts := by
  rcases applyTrackerItem_some_shape h with ⟨rfl, c0, rfl⟩ | ⟨rfl, a, rfl⟩
  · obtain ⟨rfl, -⟩ := applyTrackerItem_conflict_inv h
    exact ⟨rfl, rfl, rfl, rfl⟩
  · obtain ⟨rfl, -⟩ := applyTrackerItem_applied_inv h
    exact ⟨rfl, rfl, rfl, rfl⟩

theorem applyEntryItem_frame {c n date tid : String} {db : DB} {data : JDict}
    {db1 : DB} {cf : Option ConflictInfo} {ap : Option JDict}
    (h : applyEntryItem c n date tid db data = some (db1, cf, ap)) :
    db1.clients = db.clients ∧ db1.metaSync = db.metaSync ∧
    db1.trackers = db.trackers ∧ db1.syncConflicts = db.syncConflicts := by
  rcases applyEntryItem_some_shape h with ⟨rfl, c0, rfl⟩ | ⟨rfl, a, rfl⟩
  · obtain ⟨rfl, -⟩ := applyEntryItem_conflict_inv h
    exact ⟨rfl, rfl, rfl, rfl⟩
  · obtain ⟨rfl, -⟩ := applyEntryItem_applied_inv h
    exact ⟨rfl, rfl, rfl, rfl⟩

theorem applyTrackerItem_applied_version {c n : String} {db : DB} {item : JDict}
    {db1 : DB} {a : JDict}
    (h : applyTrackerItem c n db item = some (db1, none, some a)) :
    ((isDeletedFlag item = true ∧ aget db.trackers (pyGet item ("id")) = none) → db1 = db) ∧
    (¬ (isDeletedFlag item = true ∧ aget db.trackers (pyGet item ("id")) = none) →
      trackerVersion db1 (pyGet item ("id")) = trackerVersion db (pyGet item ("id")) + 1) := by
  obtain ⟨rfl, -⟩ := applyTrackerItem_applied_inv h
  constructor
  · rintro ⟨hdel, hnone⟩
    rw [if_pos hdel, aupdate_of_aget_none _ _ _ hnone]
  · intro hnot
    by_cases hdel : isDeletedFlag item
    · rw [not_and] at hnot
      cases hsome : aget db.trackers (pyGet item ("id")) with
      | none => exact absurd hsome (hnot hdel)
      | some r =>
        have hv : trackerVersion db (pyGet item ("id")) = r.version := by
          simp [trackerVersion, hsome]
        simp [trackerVersion, if_pos hdel, aget_aupdate_self, hsome, softDeleteTracker, hv]
    · simp [trackerVersion, if_neg hdel, aget_aset_self]

theorem applyEntryItem_applied_version {c n date tid : String} {db : DB} {data : JDict}
    {db1 : DB} {a : JDict}
    (h : applyEntryItem c n date tid db data = some (db1, none, some a)) :
    entryVersion db1 (date, tid) = entryVersion db (date, tid) + 1 := by
  obtain ⟨rfl, -⟩ := applyEntryItem_applied_inv h
  simp [entryVersion, aget_aset_self]

theorem applyTrackerItem_version_le {c n : String} {db : DB} {item : JDict}
    {db1 : DB} {cf : Option ConflictInfo} {ap : Option JDict}
    (h : applyTrackerItem c n db item = some (db1, cf, ap)) (k : Option JVal) :
    trackerVersion db k ≤ trackerVersion db1 k := by
  rcases applyTrackerItem_some_shape h with ⟨rfl, c0, rfl⟩ | ⟨rfl, a, rfl⟩
  · obtain ⟨rfl, -⟩ := applyTrackerItem_conflict_inv h
    exact le_refl _
  · obtain ⟨rfl, -⟩ := applyTrackerItem_applied_inv h
    by_cases hk : pyGet item ("id") = k
    · subst hk
      by_cases hdel : isDeletedFlag item
      · cases hsome : aget db.trackers (pyGet item ("id")) with
        | none =>
          simp [trackerVersion, if_pos hdel, aget_aupdate_self, hsome]
        | some r =>
          have hv : trackerVersion db (pyGet item ("id")) = r.version := by
            simp [trackerVersion, hsome]
          simp [trackerVersion, if_pos hdel, aget_aupdate_self, hsome, softDeleteTracker, hv]
      · simp [trackerVersion, if_neg hdel, aget_aset_self]
    · by_cases hdel : isDeletedFlag item <;>
        simp [trackerVersion, hdel, aget_aupdate_ne _ _ _ _ hk, aget_aset_ne _ _ _ _ hk]

theorem applyEntryItem_version_le {c n date tid : String} {db : DB} {data : JDict}
    {db1 : DB} {cf : Option ConflictInfo} {ap : Option JDict}
    (h : applyEntryItem c n date tid db data = some (db1, cf, ap)) (k : String × String) :
    entryVersion db k ≤ entryVersion db1 k := by
  rcases applyEntryItem_some_shape h with ⟨rfl, c0, rfl⟩ | ⟨rfl, a, rfl⟩
  · obtain ⟨rfl, -⟩ := applyEntryItem_conflict_inv h
    exact le_refl _
  · obtain ⟨rfl, -⟩ := applyEntryItem_applied_inv h
    by_cases hk : (date, tid) = k
    · subst hk
      simp [entryVersion, aget_aset_self]
    · simp [entryVersion, aget_aset_ne _ _ _ _ hk]

/-! Batch-level frame and monotonicity lemmas. -/

theorem processConfig_nil_inv {c n : String} {db db2 : DB} {cfs : List ConflictInfo}
    {aps : List JDict} (h : processConfig c n db [] = some (db2, cfs, aps)) :
    db2 = db ∧ cfs = [] ∧ aps = [] := by
  unfold processConfig at h
  obtain ⟨h1, h2, h3⟩ : db = db2 ∧ [] = cfs ∧ [] = aps := by simpa using h
  exact ⟨h1.symm, h2.symm, h3.symm⟩

theorem processConfig_cons_inv {c n : String} {db db2 : DB} {item : JDict}
    {rest : List JDict} {cfs : List ConflictInfo} {aps : List JDict}
    (h : processConfig c n db (item :: rest) = some (db2, cfs, aps)) :
    ∃ db1 cf ap cfs2 aps2,
      applyTrackerItem c n db item = some (db1, cf, ap) ∧
      processConfig c n db1 rest = some (db2, cfs2, aps2) ∧
      cfs = cf.toList ++ cfs2 ∧ aps = ap.toList ++ aps2 := by
  unfold processConfig at h
  rw [Option.bind_eq_some] at h
  obtain ⟨⟨db1, cf, ap⟩, h1, h2⟩ := h
  rw [Option.map_eq_some'] at h2
  obtain ⟨⟨dbF, cfs2, aps2⟩, h3, h4⟩ := h2
  obtain ⟨hd, hc, ha⟩ : dbF = db2 ∧ cf.toList ++ cfs2 = cfs ∧ ap.toList ++ aps2 = aps := by
    simpa using h4
  subst hd
  exact ⟨db1, cf, ap, cfs2, aps2, h1, h3, hc.symm, ha.symm⟩

theorem processConfig_frame {c n : String} :
    ∀ (l : List JDict) {db db2 : DB} {cfs : List ConflictInfo} {aps : List JDict},
    processConfig c n db l = some (db2, cfs, aps) →
    db2.clients = db.clients ∧ db2.metaSync = db.metaSync ∧
    db2.entries = db.entries ∧ db2.syncConflicts = db.syncConflicts := by
  intro l
  induction l with
  | nil =>
    intro db db2 cfs aps h
    obtain ⟨rfl, -, -⟩ := processConfig_nil_inv h
    exact ⟨rfl, rfl, rfl, rfl⟩
  | cons item rest ih =>
    intro db db2 cfs aps h
    obtain ⟨db1, cf, ap, cfs2, aps2, h1, h2, -, -⟩ := processConfig_cons_inv h
    obtain ⟨a1, a2, a3, a4⟩ := applyTrackerItem_frame h1
    obtain ⟨b1, b2, b3, b4⟩ := ih h2
    exact ⟨b1.trans a1, b2.trans a2, b3.trans a3, b4.trans a4⟩

theorem processConfig_version_le {c n : String} :
    ∀ (l : List JDict) {db db2 : DB} {cfs : List ConflictInfo} {aps : List JDict},
    processConfig c n db l = some (db2, cfs, aps) →
    ∀ k, trackerVersion db k ≤ trackerVersion db2 k := by
  intro l
  induction l with
  | nil =>
    intro db db2 cfs aps h k
    obtain ⟨rfl, -, -⟩ := processConfig_nil_inv h
    exact le_refl _
  | cons item rest ih =>
    intro db db2 cfs aps h k
    obtain ⟨db1, cf, ap, cfs2, aps2, h1, h2, -, -⟩ := processConfig_cons_inv h
    exact (applyTrackerItem_version_le h1 k).trans (ih h2 k)

theorem processEntryList_nil_inv {c n date : String} {db db2 : DB}
    {cfs : List ConflictInfo} {aps : List (String × JDict)}
    (h : processEntryList c n date db [] = some (db2, cfs, aps)) :
    db2 = db ∧ cfs = [] ∧ aps = [] := by
  unfold processEntryList at h
  obtain ⟨h1, h2, h3⟩ : db = db2 ∧ [] = cfs ∧ [] = aps := by simpa using h
  exact ⟨h1.symm, h2.symm, h3.symm⟩

theorem processEntryList_cons_inv {c n date tid : String} {db db2 : DB} {data : JDict}
    {rest : List (String × JDict)} {cfs : List ConflictInfo} {aps : List (String × JDict)}
    (h : processEntryList c n date db ((tid, data) :: rest) = some (db2, cfs, aps)) :
    ∃ db1 cf ap cfs2 aps2,
      applyEntryItem c n date tid db data = some (db1, cf, ap) ∧
      processEntryList c n date db1 rest = some (db2, cfs2, aps2) ∧
      cfs = cf.toList ++ cfs2 ∧ aps = (ap.map (fun a => (tid, a))).toList ++ aps2 := by
  unfold processEntryList at h
  rw [Option.bind_eq_some] at h
  obtain ⟨⟨db1, cf, ap⟩, h1, h2⟩ := h
  rw [Option.map_eq_some'] at h2
  obtain ⟨⟨dbF, cfs2, aps2⟩, h3, h4⟩ := h2
  obtain ⟨hd, hc, ha⟩ : dbF = db2 ∧ cf.toList ++ cfs2 = cfs ∧
      (ap.map (fun a => (tid, a))).toList ++ aps2 = aps := by simpa using h4
  subst hd
  exact ⟨db1, cf, ap, cfs2, aps2, h1, h3, hc.symm, ha.symm⟩

theorem processEntryList_frame {c n date : String} :
    ∀ (l : List (String × JDict)) {db db2 : DB} {cfs : List ConflictInfo}
      {aps : List (String × JDict)},
    processEntryList c n date db l = some (db2, cfs, aps) →
    db2.clients = db.clients ∧ db2.metaSync = db.metaSync ∧
    db2.trackers = db.trackers ∧ db2.syncConflicts = db.syncConflicts := by
  intro l
  induction l with
  | nil =>
    intro db db2 cfs aps h
    obtain ⟨rfl, -, -⟩ := processEntryList_nil_inv h
    exact ⟨rfl, rfl, rfl, rfl⟩
  | cons kv rest ih =>
    intro db db2 cfs aps h
    obtain ⟨tid, data⟩ := kv
    obtain ⟨db1, cf, ap, cfs2, aps2, h1, h2, -, -⟩ := processEntryList_cons_inv h
    obtain ⟨a1, a2, a3, a4⟩ := applyEntryItem_frame h1
    obtain ⟨b1, b2, b3, b4⟩ := ih h2
    exact ⟨b1.trans a1, b2.trans a2, b3.trans a3, b4.trans a4⟩

theorem processEntryList_version_le {c n date : String} :
    ∀ (l : List (String × JDict)) {db db2 : DB} {cfs : List ConflictInfo}
      {aps : List (String × JDict)},
    processEntryList c n date db l = some (db2, cfs, aps) →
    ∀ k, entryVersion db k ≤ entryVersion db2 k := by
  intro l
  induction l with
  | nil =>
    intro db db2 cfs aps h k
    obtain ⟨rfl, -, -⟩ := processEntryList_nil_inv h
    exact le_refl _
  | cons kv rest ih =>
    intro db db2 cfs aps h k
    obtain ⟨tid, data⟩ := kv
    obtain ⟨db1, cf, ap, cfs2, aps2, h1, h2, -, -⟩ := processEntryList_cons_inv h
    exact (applyEntryItem_version_le h1 k).trans (ih h2 k)

theorem processDays_nil_inv {c n : String} {db db2 : DB} {cfs : List ConflictInfo}
    {aps : List (String × List (String × JDict))}
    (h : processDays c n db [] = some (db2, cfs, aps)) :
    db2 = db ∧ cfs = [] ∧ aps = [] := by
  unfold processDays at h
  obtain ⟨h1, h2, h3⟩ : db = db2 ∧ [] = cfs ∧ [] = aps := by simpa using h
  exact ⟨h1.symm, h2.symm, h3.symm⟩

theorem processDays_cons_inv {c n date : String} {db db2 : DB}
    {items : List (String × JDict)} {rest : List (String × List (String × JDict))}
    {cfs : List ConflictInfo} {aps : List (String × List (String × JDict))}
    (h : processDays c n db ((date, items) :: rest) = some (db2, cfs, aps)) :
    ∃ db1 cfs1 aps1 cfs2 aps2,
      processEntryList c n date db items = some (db1, cfs1, aps1) ∧
      processDays c n db1 rest = some (db2, cfs2, aps2) ∧
      cfs = cfs1 ++ cfs2 ∧ aps = (date, aps1) :: aps2 := by
  unfold processDays at h
  rw [Option.bind_eq_some] at h
  obtain ⟨⟨db1, cfs1, aps1⟩, h1, h2⟩ := h
  rw [Option.map_eq_some'] at h2
  obtain ⟨⟨dbF, cfs2, aps2⟩, h3, h4⟩ := h2
  obtain ⟨hd, hc, ha⟩ : dbF = db2 ∧ cfs1 ++ cfs2 = cfs ∧ (date, aps1) :: aps2 = aps := by
    simpa using h4
  subst hd
  exact ⟨db1, cfs1, aps1, cfs2, aps2, h1, h3, hc.symm, ha.symm⟩

theorem processDays_frame {c n : String} :
    ∀ (l : List (String × List (String × JDict))) {db db2 : DB}
      {cfs : List ConflictInfo} {aps : List (String × List (String × JDict))},
    processDays c n db l = some (db2, cfs, aps) →
    db2.clients = db.clients ∧ db2.metaSync = db.metaSync ∧
    db2.trackers = db.trackers ∧ db2.syncConflicts = db.syncConflicts := by
  intro l
  induction l with
  | nil =>
    intro db db2 cfs aps h
    obtain ⟨rfl, -, -⟩ := processDays_nil_inv h
    exact ⟨rfl, rfl, rfl, rfl⟩
  | cons kv rest ih =>
    intro db db2 cfs aps h
    obtain ⟨date, items⟩ := kv
    obtain ⟨db1, cfs1, aps1, cfs2, aps2, h1, h2, -, -⟩ := processDays_cons_inv h
    obtain ⟨a1, a2, a3, a4⟩ := processEntryList_frame items h1
    obtain ⟨b1, b2, b3, b4⟩ := ih h2
    exact ⟨b1.trans a1, b2.trans a2, b3.trans a3, b4.trans a4⟩

theorem processDays_version_le {c n : String} :
    ∀ (l : List (String × List (String × JDict))) {db db2 : DB}
      {cfs : List ConflictInfo} {aps : List (String × List (String × JDict))},
    processDays c n db l = some (db2, cfs, aps) →
    ∀ k, entryVersion db k ≤ entryVersion db2 k := by
  intro l
  induction l with
  | nil =>
    intro db db2 cfs aps h k
    obtain ⟨rfl, -, -⟩ := processDays_nil_inv h
    exact le_refl _
  | cons kv rest ih =>
    intro db db2 cfs aps h k
    obtain ⟨date, items⟩ := kv
    obtain ⟨db1, cfs1, aps1, cfs2, aps2, h1, h2, -, -⟩ := processDays_cons_inv h
    exact (processEntryList_version_le items h1 k).trans (ih h2 k)

/-! `sync_update` and `resolve_conflict` inversion lemmas. -/

theorem sync_update_inv {db : DB} {now : String} {p : SyncPayload} {db' : DB}
    {resp : SyncResponse} (h : sync_update db now p = some (db', resp)) :
    ∃ db1 db2 cfs1 aps1 cfs2 aps2,
      processConfig p.clientId now
        { db with clients :=
            (aset db.clients p.clientId ⟨("Client-") ++ p.clientId.take 8, now⟩) }
        p.config = some (db1, cfs1, aps1) ∧
      processDays p.clientId now db1 p.days = some (db2, cfs2, aps2) ∧
      resp = ⟨(cfs1 ++ cfs2).isEmpty, cfs1 ++ cfs2, aps1, aps2,
              (if (cfs1 ++ cfs2).isEmpty then some now else none), []⟩ ∧
      db' = (if (cfs1 ++ cfs2).isEmpty then { db2 with metaSync := some now } else db2) := by
  unfold sync_update at h
  rw [Option.bind_eq_some] at h
  obtain ⟨⟨db1, cfs1, aps1⟩, h1, h2⟩ := h
  rw [Option.map_eq_some'] at h2
  obtain ⟨⟨db2, cfs2, aps2⟩, h3, h4⟩ := h2
  obtain ⟨hd, hr⟩ : _ = db' ∧ _ = resp := Prod.mk.injEq .. ▸ h4
  exact ⟨db1, db2, cfs1, aps1, cfs2, aps2, h1, h3, hr.symm, hd.symm⟩

theorem sync_update_watermark {db : DB} {now : String} {p : SyncPayload} {db' : DB}
    {resp : SyncResponse} (h : sync_update db now p = some (db', resp)) :
    db'.metaSync = (if resp.conflicts.isEmpty then some now else db.metaSync) ∧
    resp.lastModified = (if resp.conflicts.isEmpty then some now else none) ∧
    resp.success = resp.conflicts.isEmpty := by
  obtain ⟨db1, db2, cfs1, aps1, cfs2, aps2, h1, h2, rfl, rfl⟩ := sync_update_inv h
  have m1 := (processConfig_frame p.config h1).2.1
  have m2 := (processDays_frame p.days h2).2.1
  by_cases hc : (cfs1 ++ cfs2).isEmpty
  · simp [hc, m1, m2]
  · simp only [Bool.not_eq_true] at hc
    simp [hc, m1, m2]

theorem sync_update_syncConflicts {db : DB} {now : String} {p : SyncPayload} {db' : DB}
    {resp : SyncResponse} (h : sync_update db now p = some (db', resp)) :
    db'.syncConflicts = db.syncConflicts := by
  obtain ⟨db1, db2, cfs1, aps1, cfs2, aps2, h1, h2, rfl, rfl⟩ := sync_update_inv h
  have m1 := (processConfig_frame p.config h1).2.2.2
  have m2 := (processDays_frame p.days h2).2.2.2
  by_cases hc : (cfs1 ++ cfs2).isEmpty <;> simp [hc, m1, m2]

theorem sync_update_version_le {db : DB} {now : String} {p : SyncPayload} {db' : DB}
    {resp : SyncResponse} (h : sync_update db now p = some (db', resp)) :
    (∀ k, trackerVersion db k ≤ trackerVersion db' k) ∧
    (∀ k, entryVersion db k ≤ entryVersion db' k) := by
  obtain ⟨db1, db2, cfs1, aps1, cfs2, aps2, h1, h2, rfl, rfl⟩ := sync_update_inv h
  have htr1 := processConfig_version_le p.config h1
  have hen1 := (processConfig_frame p.config h1).2.2.1
  have htr2 := (processDays_frame p.days h2).2.2.1
  have hen2 := processDays_version_le p.days h2
  constructor
  · intro k
    have base : trackerVersion db k ≤ trackerVersion db2 k := by
      have := htr1 k
      rw [show trackerVersion db2 = fun k0 => trackerVersion db1 k0 from ?_]
      · exact this
      · funext k0
        unfold trackerVersion
        rw [htr2]
    by_cases hc : (cfs1 ++ cfs2).isEmpty <;>
      simpa [hc, trackerVersion] using base
  · intro k
    have base : entryVersion db k ≤ entryVersion db2 k := by
      have h0 : entryVersion db k = entryVersion db1 k := by
        unfold entryVersion
        rw [hen1]
      rw [h0]
      exact hen2 k
    by_cases hc : (cfs1 ++ cfs2).isEmpty <;>
      simpa [hc, entryVersion] using base

theorem resolveForced_inv {db : DB} {now et eid cid : String} {cd : JDict} {dbW : DB}
    (h : resolveForced db now et eid cid cd = some dbW) :
    dbW.clients = db.clients ∧ dbW.metaSync = db.metaSync ∧
    dbW.syncConflicts = db.syncConflicts ∧
    (∀ k, trackerVersion db k ≤ trackerVersion dbW k) ∧
    (∀ k, entryVersion db k ≤ entryVersion dbW k) := by
  unfold resolveForced at h
  split at h
  · obtain rfl := Option.some_inj.mp h
    refine ⟨rfl, rfl, rfl, ?_, fun k => le_refl _⟩
    intro k
    by_cases hk : (some (JVal.str eid) : Option JVal) = k
    · subst hk
      simp only [trackerVersion, aget_aset_self]
      cases aget db.trackers (some (JVal.str eid)) <;> simp
    · simp [trackerVersion, aget_aset_ne _ _ _ _ hk]
  · split at h
    · split at h
      · obtain rfl := Option.some_inj.mp h
        rename_i d0 t0 hsplit
        refine ⟨rfl, rfl, rfl, fun k => le_refl _, ?_⟩
        intro k
        by_cases hk : ((d0, t0) : String × String) = k
        · subst hk
          simp only [entryVersion, aget_aset_self]
          cases aget db.entries (d0, t0) <;> simp
        · simp [entryVersion, aget_aset_ne _ _ _ _ hk]
      · simp at h
    · obtain rfl := Option.some_inj.mp h
      exact ⟨rfl, rfl, rfl, fun k => le_refl _, fun k => le_refl _⟩

theorem resolve_conflict_inv {db : DB} {now et eid res cid : String} {cd : Option JDict}
    {db' : DB} (h : resolve_conflict db now et eid res cid cd = some db') :
    ∃ dbW,
      ((res == "client" && truthyDict cd) = true ∧
        resolveForced db now et eid cid (cd.getD []) = some dbW ∨
       (res == "client" && truthyDict cd) = false ∧ dbW = db) ∧
      db' = { dbW with
        syncConflicts := (dbW.syncConflicts ++
          [⟨dbW.syncConflicts.length + 1, et, eid, cid,
            (if truthyDict cd then cd else none), none,
            some res, some now, some now⟩]),
        metaSync := some now } := by
  unfold resolve_conflict at h
  rw [Option.map_eq_some'] at h
  obtain ⟨dbW, h1, h2⟩ := h
  by_cases hc : (res == "client" && truthyDict cd) = true
  · rw [if_pos hc] at h1
    exact ⟨dbW, Or.inl ⟨hc, h1⟩, h2.symm⟩
  · rw [if_neg hc] at h1
    exact ⟨dbW, Or.inr ⟨by simpa using hc, (Option.some_inj.mp h1).symm⟩, h2.symm⟩

theorem resolve_client_tracker_incr {db : DB} {now eid cid : String} {cd : JDict}
    {db' : DB} (hne : cd ≠ [])
    (h : resolve_conflict db now ("tracker") eid ("client") cid (some cd) = some db') :
    trackerVersion db' (some (JVal.str eid)) =
      trackerVersion db (some (JVal.str eid)) + 1 := by
  obtain ⟨dbW, hcase, rfl⟩ := resolve_conflict_inv h
  rcases hcase with ⟨-, hf⟩ | ⟨hfalse, -⟩
  · unfold resolveForced at hf
    rw [if_pos (by simp)] at hf
    obtain rfl := Option.some_inj.mp hf
    simp [trackerVersion, aget_aset_self]
  · exfalso
    cases cd with
    | nil => exact hne rfl
    | cons a l => simp [truthyDict] at hfalse

theorem resolve_client_entry_incr {db : DB} {now eid cid d0 t0 : String} {cd : JDict}
    {db' : DB} (hne : cd ≠ []) (hsplit : eid.splitOn ("|") = [d0, t0])
    (h : resolve_conflict db now ("entry") eid ("client") cid (some cd) = some db') :
    entryVersion db' (d0, t0) = entryVersion db (d0, t0) + 1 := by
  obtain ⟨dbW, hcase, rfl⟩ := resolve_conflict_inv h
  rcases hcase with ⟨-, hf⟩ | ⟨hfalse, -⟩
  · unfold resolveForced at hf
    rw [if_neg (by simp), if_pos (by simp), hsplit] at hf
    obtain rfl := Option.some_inj.mp hf
    simp [entryVersion, aget_aset_self]
  · exfalso
    cases cd with
    | nil => exact hne rfl
    | cons a l => simp [truthyDict] at hfalse

theorem resolve_conflict_version_le {db : DB} {now et eid res cid : String}
    {cd : Option JDict} {db' : DB}
    (h : resolve_conflict db now et eid res cid cd = some db') :
    (∀ k, trackerVersion db k ≤ trackerVersion db' k) ∧
    (∀ k, entryVersion db k ≤ entryVersion db' k) := by
  obtain ⟨dbW, hcase, rfl⟩ := resolve_conflict_inv h
  rcases hcase with ⟨-, hf⟩ | ⟨-, rfl⟩
  · obtain ⟨-, -, -, htr, hen⟩ := resolveForced_inv hf
    exact ⟨fun k => by simpa [trackerVersion] using htr k,
           fun k => by simpa [entryVersion] using hen k⟩
  · exact ⟨fun k => le_refl _, fun k => le_refl _⟩

theorem resolve_conflict_ledger {db : DB} {now et eid res cid : String}
    {cd : Option JDict} {db' : DB}
    (h : resolve_conflict db now et eid res cid cd = some db') :
    ∀ cr ∈ db'.syncConflicts, cr ∈ db.syncConflicts ∨ cr.resolvedAt = some now := by
  obtain ⟨dbW, hcase, rfl⟩ := resolve_conflict_inv h
  have hW : dbW.syncConflicts = db.syncConflicts := by
    rcases hcase with ⟨-, hf⟩ | ⟨-, rfl⟩
    · exact (resolveForced_inv hf).2.2.1
    · rfl
  intro cr hcr
  simp only [hW] at hcr
  rcases List.mem_append.mp hcr with hl | hr
  · exact Or.inl hl
  · right
    obtain rfl : cr = _ := by simpa using hr
    rfl

theorem register_client_frame (db : DB) (now cid : String) (cn : Option String) :
    (register_client db now cid cn).metaSync = db.metaSync ∧
    (register_client db now cid cn).trackers = db.trackers ∧
    (register_client db now cid cn).entries = db.entries ∧
    (register_client db now cid cn).syncConflicts = db.syncConflicts := by
  unfold register_client
  exact ⟨rfl, rfl, rfl, rfl⟩

theorem DBStep_version_le {db db2 : DB} (h : DBStep db db2) :
    (∀ k, trackerVersion db k ≤ trackerVersion db2 k) ∧
    (∀ k, entryVersion db k ≤ entryVersion db2 k) := by
  cases h with
  | register now cid cn =>
    obtain ⟨-, h2, h3, -⟩ := register_client_frame db now cid cn
    exact ⟨fun k => by simp [trackerVersion, h2],
           fun k => by simp [entryVersion, h3]⟩
  | update db2x now p r hu => exact sync_update_version_le hu
  | resolve db2x now et eid res cid cd hr => exact resolve_conflict_version_le hr

theorem DBStep_ledger {db db2 : DB} (h : DBStep db db2) :
    ∀ cr ∈ db2.syncConflicts, cr ∈ db.syncConflicts ∨ cr.resolvedAt ≠ none := by
  cases h with
  | register now cid cn =>
    intro cr hcr
    exact Or.inl ((register_client_frame db now cid cn).2.2.2 ▸ hcr)
  | update db2x now p r hu =>
    intro cr hcr
    exact Or.inl (sync_update_syncConflicts hu ▸ hcr)
  | resolve db2x now et eid res cid cd hr =>
    intro cr hcr
    rcases resolve_conflict_ledger hr cr hcr with hl | hres
    · exact Or.inl hl
    · exact Or.inr (by simp [hres])

theorem reachable_ledger_resolved {db : DB} (h : DBReachable db) :
    ∀ cr ∈ db.syncConflicts, cr.resolvedAt ≠ none := by
  induction h with
  | init => intro cr hcr; simp [initDB] at hcr
  | step db db2 hre hstep ih =>
    intro cr hcr
    rcases DBStep_ledger hstep cr hcr with hl | hr
    · exact ih cr hl
    · exact hr

theorem steps_version_le {db db' : DB} (h : Relation.ReflTransGen DBStep db db') :
    (∀ k, trackerVersion db k ≤ trackerVersion db' k) ∧
    (∀ k, entryVersion db k ≤ entryVersion db' k) := by
  induction h with
  | refl => exact ⟨fun k => le_refl _, fun k => le_refl _⟩
  | tail hs hstep ih =>
    obtain ⟨t1, e1⟩ := ih
    obtain ⟨t2, e2⟩ := DBStep_version_le hstep
    exact ⟨fun k => (t1 k).trans (t2 k), fun k => (e1 k).trans (e2 k)⟩

/-! Claim theorems. -/

/-- C1: Version Gate correctness. For a tracker or entry item whose declared
base version is a (nonnegative) number, the item is applied if and only if
the stored server version (0 when no record exists) is at most the client
base version, and it is reported as a conflict, with the store untouched, if
and only if the server version exceeds the client base version; in particular
a nonexistent record with base version 0 always applies (the create path). -/
theorem C1_version_gate (db : DB) (clientId now date tid : String) (item data : JDict)
    (cbvT cbvE : Int) (hbT : getBaseVersion item = some cbvT) (hT0 : 0 ≤ cbvT)
    (hbE : getBaseVersion data = some cbvE) (hE0 : 0 ≤ cbvE) :
    ((∃ db1 a, applyTrackerItem clientId now db item = some (db1, none, some a)) ↔
      (trackerVersion db (pyGet item ("id")) : Int) ≤ cbvT) ∧
    ((∃ cf, applyTrackerItem clientId now db item = some (db, some cf, none)) ↔
      (trackerVersion db (pyGet item ("id")) : Int) > cbvT) ∧
    ((∃ db1 a, applyEntryItem clientId now date tid db data = some (db1, none, some a)) ↔
      (entryVersion db (date, tid) : Int) ≤ cbvE) ∧
    ((∃ cf, applyEntryItem clientId now date tid db data = some (db, some cf, none)) ↔
      (entryVersion db (date, tid) : Int) > cbvE) := by
  refine ⟨?_, ?_, ?_, ?_⟩
  · cases heq : aget db.trackers (pyGet item ("id")) with
    | none =>
      have hv : trackerVersion db (pyGet item ("id")) = 0 := by simp [trackerVersion, heq]
      rw [hv]
      refine iff_of_true ?_ (by exact_mod_cast hT0)
      rw [applyTrackerItem_of_none heq, applyTrackerWrite_shape]
      exact ⟨_, _, rfl⟩
    | some r =>
      have hv : trackerVersion db (pyGet item ("id")) = r.version := by
        simp [trackerVersion, heq]
      rw [hv]
      by_cases hgt : (r.version : Int) > cbvT
      · refine iff_of_false ?_ (by omega)
        rintro ⟨db1, a, hcf⟩
        rw [applyTrackerItem_of_gt heq hbT hgt] at hcf
        simp at hcf
      · refine iff_of_true ?_ (by omega)
        rw [applyTrackerItem_of_le heq hbT hgt, applyTrackerWrite_shape]
        exact ⟨_, _, rfl⟩
  · cases heq : aget db.trackers (pyGet item ("id")) with
    | none =>
      have hv : trackerVersion db (pyGet item ("id")) = 0 := by simp [trackerVersion, heq]
      rw [hv]
      refine iff_of_false ?_ (by omega)
      rintro ⟨cf, hcf⟩
      rw [applyTrackerItem_of_none heq, applyTrackerWrite_shape] at hcf
      simp at hcf
    | some r =>
      have hv : trackerVersion db (pyGet item ("id")) = r.version := by
        simp [trackerVersion, heq]
      rw [hv]
      by_cases hgt : (r.version : Int) > cbvT
      · refine iff_of_true ?_ hgt
        rw [applyTrackerItem_of_gt heq hbT hgt]
        exact ⟨_, rfl⟩
      · refine iff_of_false ?_ hgt
        rintro ⟨cf, hcf⟩
        rw [applyTrackerItem_of_le heq hbT hgt, applyTrackerWrite_shape] at hcf
        simp at hcf
  · cases heq : aget db.entries (date, tid) with
    | none =>
      have hv : entryVersion db (date, tid) = 0 := by simp [entryVersion, heq]
      rw [hv]
      refine iff_of_true ?_ (by exact_mod_cast hE0)
      rw [applyEntryItem_of_none heq, applyEntryWrite_shape]
      exact ⟨_, _, rfl⟩
    | some r =>
      have hv : entryVersion db (date, tid) = r.version := by simp [entryVersion, heq]
      rw [hv]
      by_cases hgt : (r.version : Int) > cbvE
      · refine iff_of_false ?_ (by omega)
        rintro ⟨db1, a, hcf⟩
        rw [applyEntryItem_of_gt heq hbE hgt] at hcf
        simp at hcf
      · refine iff_of_true ?_ (by omega)
        rw [applyEntryItem_of_le heq hbE hgt, applyEntryWrite_shape]
        exact ⟨_, _, rfl⟩
  · cases heq : aget db.entries (date, tid) with
    | none =>
      have hv : entryVersion db (date, tid) = 0 := by simp [entryVersion, heq]
      rw [hv]
      refine iff_of_false ?_ (by omega)
      rintro ⟨cf, hcf⟩
      rw [applyEntryItem_of_none heq, applyEntryWrite_shape] at hcf
      simp at hcf
    | some r =>
      have hv : entryVersion db (date, tid) = r.version := by simp [entryVersion, heq]
      rw [hv]
      by_cases hgt : (r.version : Int) > cbvE
      · refine iff_of_true ?_ hgt
        rw [applyEntryItem_of_gt heq hbE hgt]
        exact ⟨_, rfl⟩
      · refine iff_of_false ?_ hgt
        rintro ⟨cf, hcf⟩
        rw [applyEntryItem_of_le heq hbE hgt, applyEntryWrite_shape] at hcf
        simp at hcf

/-- C1 witness: a create against the empty store applies, and a stale push of
t1 against its stored version 1 conflicts. -/
theorem C1_version_gate_witness :
    (∃ db1 a, applyTrackerItem ("c1") ("T1") initDB itemT1 = some (db1, none, some a)) ∧
    (∃ cf, applyTrackerItem ("c2") ("T2") dbT1 staleItem = some (dbT1, some cf, none)) := by
  constructor
  · exact (C1_version_gate initDB ("c1") ("T1") ("d") ("t") itemT1 [] 0 0
      (by decide) (by decide) (by decide) (by decide)).1.mpr (by decide)
  · exact (C1_version_gate dbT1 ("c2") ("T2") ("d") ("t") staleItem [] 0 0
      (by decide) (by decide) (by decide) (by decide)).2.1.mpr (by decide)

/-- C2 evidence: a push batch never writes the sync_conflicts ledger, so a
batch with a rejected item leaves the ledger empty and the unresolved-conflict
query for the pushing client returns nothing. -/
theorem C2_conflicts_never_persisted :
    (∀ (db : DB) (now : String) (p : SyncPayload) (db' : DB) (resp : SyncResponse),
       sync_update db now p = some (db', resp) → db'.syncConflicts = db.syncConflicts) ∧
    (sync_update dbT1 ("T2") pMixed = some mixedRes ∧
     mixedRes.2.conflicts ≠ [] ∧ mixedRes.1.syncConflicts = [] ∧
     get_unresolved_conflicts mixedRes.1 ("c2") = []) := by
  refine ⟨fun db now p db' resp h => sync_update_syncConflicts h, ?_, ?_, ?_, ?_⟩
  · decide
  · decide
  · decide
  · decide

/-- C2 witness: the ledger-preservation half at the concrete mixed batch. -/
theorem C2_conflicts_never_persisted_witness :
    mixedRes.1.syncConflicts = dbT1.syncConflicts :=
  C2_conflicts_never_persisted.1 dbT1 ("T2") pMixed mixedRes.1 mixedRes.2 (by decide)

/-- C3: the global last-sync watermark is advanced (and returned as the new
watermark) if and only if the batch produced zero conflicts; a batch with a
conflict leaves the watermark exactly as before. -/
theorem C3_watermark_iff_clean (db : DB) (now : String) (p : SyncPayload)
    (db' : DB) (resp : SyncResponse) (h : sync_update db now p = some (db', resp)) :
    db'.metaSync = (if resp.conflicts.isEmpty then some now else db.metaSync) ∧
    resp.lastModified = (if resp.conflicts.isEmpty then some now else none) ∧
    resp.success = resp.conflicts.isEmpty :=
  sync_update_watermark h

/-- C3 witness: the mixed batch (one stale item, one clean item) leaves the
watermark unchanged while the clean item is durably applied at version 1. -/
theorem C3_watermark_iff_clean_witness :
    mixedRes.1.metaSync = dbT1.metaSync ∧
    trackerVersion mixedRes.1 (some (JVal.str ("t2"))) = 1 := by
  obtain ⟨h1, -, -⟩ :=
    C3_watermark_iff_clean dbT1 ("T2") pMixed mixedRes.1 mixedRes.2 (by decide)
  constructor
  · rw [h1, show mixedRes.2.conflicts.isEmpty = false from by decide]
    simp
  · decide

/-- C9: every row ever inserted into the sync_conflicts ledger carries a
non-null resolved_at (resolve_conflict is the only writer and stamps it at
insertion), so in every reachable state the unresolved-conflict query returns
the empty list for every client. -/
theorem C9_unresolved_always_empty (db : DB) (h : DBReachable db) :
    (∀ cr ∈ db.syncConflicts, cr.resolvedAt ≠ none) ∧
    (∀ cid, get_unresolved_conflicts db cid = []) := by
  have hres := reachable_ledger_resolved h
  refine ⟨hres, fun cid => ?_⟩
  unfold get_unresolved_conflicts
  have hfil : db.syncConflicts.filter
      (fun c => c.clientId == cid && c.resolvedAt == none) = [] := by
    rw [List.filter_eq_nil_iff]
    intro c hc
    have hne := hres c hc
    cases hra : c.resolvedAt with
    | none => exact absurd hra hne
    | some s => simp [hra]
  rw [hfil]
  rfl

/-- C9 witness: after one resolve on the fresh database the unresolved list
for the resolving client is empty. -/
theorem C9_unresolved_always_empty_witness :
    get_unresolved_conflicts dbResolveOnly ("c1") = [] :=
  (C9_unresolved_always_empty dbResolveOnly
    (DBReachable.step initDB dbResolveOnly DBReachable.init
      (DBStep.resolve initDB dbResolveOnly ("T1") ("tracker") ("t1") ("server") ("c1")
        none (by decide)))).2 ("c1")

/-- C4 counterexample: the soft-delete of a nonexistent id is accepted (the
batch reports it applied with version 1) yet no stored record receives
version 1 — the store still has no row for that id. This refutes the claim
that every accepted write, soft-deletes included, sets the stored version to
the previous stored version plus one. -/
theorem C4_counterexample :
    sync_update initDB ("T1") pDel = some delRes ∧
    aget (delRes.2.appliedConfig.headD []) ("_version") = some (JVal.num 1) ∧
    aget delRes.1.trackers (some (JVal.str ("tx"))) = none := by
  refine ⟨?_, ?_, ?_⟩
  · decide
  · decide
  · decide

/-- C4 amended: every accepted write that actually touches the store — an
apply of a non-delete item, an apply of a soft-delete of an existing id, an
accepted entry write, or a client-forced resolve — sets the stored version to
exactly the previous stored version plus one (one on first write); a
soft-delete of a nonexistent id stores nothing and leaves the database
unchanged; and across any sequence of operations no stored version ever
decreases. -/
theorem C4_version_monotonicity :
    (∀ (c n : String) (db : DB) (item : JDict) (db1 : DB) (a : JDict),
       applyTrackerItem c n db item = some (db1, none, some a) →
       ((isDeletedFlag item = true ∧ aget db.trackers (pyGet item ("id")) = none) →
          db1 = db) ∧
       (¬ (isDeletedFlag item = true ∧ aget db.trackers (pyGet item ("id")) = none) →
          trackerVersion db1 (pyGet item ("id")) =
            trackerVersion db (pyGet item ("id")) + 1)) ∧
    (∀ (c n date tid : String) (db : DB) (data : JDict) (db1 : DB) (a : JDict),
       applyEntryItem c n date tid db data = some (db1, none, some a) →
       entryVersion db1 (date, tid) = entryVersion db (date, tid) + 1) ∧
    (∀ (db : DB) (now eid cid : String) (cd : JDict) (db' : DB), cd ≠ [] →
       resolve_conflict db now ("tracker") eid ("client") cid (some cd) = some db' →
       trackerVersion db' (some (JVal.str eid)) =
         trackerVersion db (some (JVal.str eid)) + 1) ∧
    (∀ (db : DB) (now eid cid d0 t0 : String) (cd : JDict) (db' : DB), cd ≠ [] →
       eid.splitOn ("|") = [d0, t0] →
       resolve_conflict db now ("entry") eid ("client") cid (some cd) = some db' →
       entryVersion db' (d0, t0) = entryVersion db (d0, t0) + 1) ∧
    (∀ (db db' : DB), Relation.ReflTransGen DBStep db db' →
       (∀ k, trackerVersion db k ≤ trackerVersion db' k) ∧
       (∀ k, entryVersion db k ≤ entryVersion db' k)) :=
  ⟨fun _ _ _ _ _ _ h => applyTrackerItem_applied_version h,
   fun _ _ _ _ _ _ _ _ h => applyEntryItem_applied_version h,
   fun _ _ _ _ _ _ hne h => resolve_client_tracker_incr hne h,
   fun _ _ _ _ _ _ _ _ hne hs h => resolve_client_entry_incr hne hs h,
   fun _ _ h => steps_version_le h⟩

/-- C4 witness: the create of t1 against the empty store bumps the stored
version from 0 to 1. -/
theorem C4_version_monotonicity_witness :
    trackerVersion dbCreateItem (pyGet itemT1 ("id")) =
      trackerVersion initDB (pyGet itemT1 ("id")) + 1 :=
  (C4_version_monotonicity.1 ("c1") ("T1") initDB itemT1 dbCreateItem
    (dmerge itemT1 [("_version", JVal.num 1), ("_lastModifiedBy", JVal.str ("c1")),
                    ("_lastModifiedAt", JVal.str ("T1"))])
    (by decide)).2 (by decide)

/-- C5 counterexample: resolving the same tracker conflict twice with
resolution client and the same client data increments the stored version
twice — version 2 after the first call, version 3 after the second — instead
of leaving it at the single forced apply. -/
theorem C5_counterexample :
    resolve_conflict dbT1 ("T2") ("tracker") ("t1") ("client") ("cB") (some cdB) =
      some dbRes1 ∧
    resolve_conflict dbRes1 ("T3") ("tracker") ("t1") ("client") ("cB") (some cdB) =
      some dbRes2 ∧
    trackerVersion dbRes1 (some (JVal.str ("t1"))) = 2 ∧
    trackerVersion dbRes2 (some (JVal.str ("t1"))) = 3 := by
  refine ⟨?_, ?_, ?_, ?_⟩
  · decide
  · decide
  · decide
  · decide

/-- C5 amended: a resolution with resolution client and nonempty client data
is never rejected and always force-applies, incrementing the stored version by
exactly one; hence two identical resolutions increment it by two rather than
leaving it at the single forced apply. -/
theorem C5_resolution_not_idempotent (db : DB) (now1 now2 eid cid : String)
    (cd : JDict) (db1 db2 : DB) (hne : cd ≠ [])
    (h1 : resolve_conflict db now1 ("tracker") eid ("client") cid (some cd) = some db1)
    (h2 : resolve_conflict db1 now2 ("tracker") eid ("client") cid (some cd) = some db2) :
    trackerVersion db1 (some (JVal.str eid)) =
      trackerVersion db (some (JVal.str eid)) + 1 ∧
    trackerVersion db2 (some (JVal.str eid)) =
      trackerVersion db (some (JVal.str eid)) + 2 := by
  have a1 := resolve_client_tracker_incr hne h1
  have a2 := resolve_client_tracker_incr hne h2
  exact ⟨a1, by omega⟩

/-- C5 witness: the double resolution of t1 lands on version 3 = 1 + 2. -/
theorem C5_resolution_not_idempotent_witness :
    trackerVersion dbRes2 (some (JVal.str ("t1"))) =
      trackerVersion dbT1 (some (JVal.str ("t1"))) + 2 :=
  (C5_resolution_not_idempotent dbT1 ("T2") ("T3") ("t1") ("cB") cdB dbRes1 dbRes2
    (by decide) (by decide) (by decide)).2

/-- C6: when the gate rejects an item, the record store is left completely
unchanged, the reported conflict carries the full current server-side value
and both versions, and the batch continues with the remaining items rather
than aborting. -/
theorem C6_conflict_frame :
    (∀ (c n : String) (db : DB) (item : JDict) (db1 : DB) (cf : ConflictInfo)
       (ap : Option JDict) (rest : List JDict),
       applyTrackerItem c n db item = some (db1, some cf, ap) →
       db1 = db ∧ ap = none ∧
       (∃ r cbv, aget db.trackers (pyGet item ("id")) = some r ∧
          getBaseVersion item = some cbv ∧ ((r.version : Int) > cbv) ∧
          cf = ⟨"tracker", pyGet item ("id"), r.version, cbv,
                trackerConflictData (pyGet item ("id")) r⟩) ∧
       processConfig c n db (item :: rest) =
         (processConfig c n db rest).map (fun y => (y.1, cf :: y.2.1, y.2.2))) ∧
    (∀ (c n date tid : String) (db : DB) (data : JDict) (db1 : DB) (cf : ConflictInfo)
       (ap : Option JDict) (rest : List (String × JDict)),
       applyEntryItem c n date tid db data = some (db1, some cf, ap) →
       db1 = db ∧ ap = none ∧
       (∃ r cbv, aget db.entries (date, tid) = some r ∧
          getBaseVersion data = some cbv ∧ ((r.version : Int) > cbv) ∧
          cf = ⟨"entry", some (JVal.str (date ++ ("|") ++ tid)), r.version, cbv,
                entryConflictData r⟩) ∧
       processEntryList c n date db ((tid, data) :: rest) =
         (processEntryList c n date db rest).map (fun y => (y.1, cf :: y.2.1, y.2.2))) := by
  constructor
  · intro c n db item db1 cf ap rest h
    obtain ⟨hdb, hap, hex⟩ := applyTrackerItem_conflict_inv h
    subst hdb
    subst hap
    refine ⟨rfl, rfl, hex, ?_⟩
    conv_lhs => rw [processConfig]
    rw [h, Option.some_bind]
    simp
  · intro c n date tid db data db1 cf ap rest h
    obtain ⟨hdb, hap, hex⟩ := applyEntryItem_conflict_inv h
    subst hdb
    subst hap
    refine ⟨rfl, rfl, hex, ?_⟩
    conv_lhs => rw [processEntryList]
    rw [h, Option.some_bind]
    simp

/-- C6 witness: the stale tracker item and the stale entry item each leave the
store unchanged and prepend their conflict to the result of the rest of the
batch. -/
theorem C6_conflict_frame_witness :
    processConfig ("c2") ("T2") dbT1 (staleItem :: [cleanItem2]) =
      (processConfig ("c2") ("T2") dbT1 [cleanItem2]).map
        (fun y => (y.1, staleCf :: y.2.1, y.2.2)) ∧
    processEntryList ("c2") ("T2") ("2024-01-05") dbT1E ((("t1"), entryData0) :: []) =
      (processEntryList ("c2") ("T2") ("2024-01-05") dbT1E []).map
        (fun y => (y.1, entryCf :: y.2.1, y.2.2)) := by
  constructor
  · exact (C6_conflict_frame.1 ("c2") ("T2") dbT1 staleItem dbT1 staleCf none
      [cleanItem2] (by decide)).2.2.2
  · exact (C6_conflict_frame.2 ("c2") ("T2") ("2024-01-05") ("t1") dbT1E entryData0
      dbT1E entryCf none [] (by decide)).2.2.2

/-- C7: extension fields outside the reserved set survive an accepted
non-delete tracker write and come back unchanged, merged into the flat
tracker output of both the Full and the Delta snapshot. -/
theorem C7_extension_roundtrip (c n sevenDaysAgo now2 since cid : String) (db : DB)
    (item : JDict) (db1 : DB) (a : JDict) (k : String) (v : JVal)
    (h : applyTrackerItem c n db item = some (db1, none, some a))
    (hdel : isDeletedFlag item = false)
    (hk : excludedKeys.contains k = false)
    (hv : aget item k = some v)
    (hsince : strLt since n = true) :
    (∃ out ∈ (sync_full db1 sevenDaysAgo now2).config,
       aget out ("id") = some ((pyGet item ("id")).getD JVal.null) ∧
       aget out k = some v) ∧
    (∃ out ∈ (sync_delta db1 since cid sevenDaysAgo now2).config,
       aget out ("id") = some ((pyGet item ("id")).getD JVal.null) ∧
       aget out k = some v) := by
  obtain ⟨hdb, -⟩ := applyTrackerItem_applied_inv h
  rw [hdel] at hdb
  simp only [Bool.false_eq_true, if_false] at hdb
  have hrow : aget db1.trackers (pyGet item ("id")) =
      some ⟨pyGet item ("name"), getOrDflt item ("category") (JVal.str ("")),
            getOrDflt item ("type") (JVal.str ("simple")), metaOf item,
            trackerVersion db (pyGet item ("id")) + 1, some c, some n, false⟩ := by
    rw [hdb]
    exact aget_aset_self _ _ _
  have hmem := aget_mem hrow
  have hid : aget (metaOf item) ("id") = none := by
    unfold metaOf
    rw [aget_filter_key (fun key => !(excludedKeys.contains key)) item ("id")]
    simp [excludedKeys]
  have hmk : aget (metaOf item) k = some v := by
    unfold metaOf
    rw [aget_filter_key (fun key => !(excludedKeys.contains key)) item k]
    have hk2 : (!(excludedKeys.contains k)) = true := by rw [hk]; rfl
    rw [if_pos hk2, hv]
  constructor
  · refine ⟨trackerOut (pyGet item ("id")) _, List.mem_map.mpr ⟨_,
      List.mem_filter.mpr ⟨hmem, rfl⟩, rfl⟩, ?_, ?_⟩
    · simp [trackerOut, aget_dmerge, hid, aget]
    · simp [trackerOut, aget_dmerge, hmk]
  · refine ⟨trackerOut (pyGet item ("id")) _, List.mem_map.mpr ⟨_,
      List.mem_filter.mpr ⟨List.mem_filter.mpr ⟨hmem, ?_⟩, rfl⟩, rfl⟩, ?_, ?_⟩
    · simp [modifiedAfter, hsince]
    · simp [trackerOut, aget_dmerge, hid, aget]
    · simp [trackerOut, aget_dmerge, hmk]

/-- C7 witness: the tracker created with goal = 10 comes back from both
snapshots with that extension field intact. -/
theorem C7_extension_roundtrip_witness :
    (∃ out ∈ (sync_full dbCreateItem ("D0") ("T9")).config,
       aget out ("id") = some ((pyGet itemT1 ("id")).getD JVal.null) ∧
       aget out ("goal") = some (JVal.num 10)) ∧
    (∃ out ∈ (sync_delta dbCreateItem ("T0") ("cX") ("D0") ("T9")).config,
       aget out ("id") = some ((pyGet itemT1 ("id")).getD JVal.null) ∧
       aget out ("goal") = some (JVal.num 10)) :=
  C7_extension_roundtrip ("c1") ("T1") ("D0") ("T9") ("T0") ("cX") initDB itemT1
    dbCreateItem
    (dmerge itemT1 [("_version", JVal.num 1), ("_lastModifiedBy", JVal.str ("c1")),
                    ("_lastModifiedAt", JVal.str ("T1"))])
    ("goal") (JVal.num 10) (by decide) (by decide) (by decide) (by decide) (by decide)

theorem keysNodup_filter {κ α : Type} [DecidableEq κ] (p : κ × α → Bool)
    (l : List (κ × α)) (h : keysNodup l) : keysNodup (l.filter p) := by
  unfold keysNodup at h ⊢
  exact List.Nodup.sublist ((l.filter_sublist).map (fun kv => kv.1)) h

theorem aget_isSome_of_mem {κ α : Type} [DecidableEq κ] {l : List (κ × α)} {k : κ}
    {v : α} (h : (k, v) ∈ l) : aget l k ≠ none := by
  induction l with
  | nil => simp at h
  | cons hd t ih =>
    obtain ⟨k0, w⟩ := hd
    by_cases hk : k0 = k
    · simp [aget, hk]
    · rcases List.mem_cons.mp h with heq | hmem
      · injection heq with h1 h2
        exact absurd h1.symm hk
      · simp [aget, hk, ih hmem]

/-- C8: the Delta snapshot returns exactly the trackers whose last-modified
stamp is strictly after since or is null, tombstones as bare ids and live
trackers as full upsert records, with no live tracker id ever listed among the
deleted ids; and exactly the entries inside the retention window whose stamp
is after since or null. -/
theorem C8_delta_snapshot (db : DB) (since cid sevenDaysAgo now : String) :
    (∀ k r, (k, r) ∈ db.trackers → r.deleted = true →
       modifiedAfter r.lastModifiedAt since = true →
       k ∈ (sync_delta db since cid sevenDaysAgo now).deletedTrackers) ∧
    (∀ k ∈ (sync_delta db since cid sevenDaysAgo now).deletedTrackers,
       ∃ r, (k, r) ∈ db.trackers ∧ r.deleted = true ∧
         modifiedAfter r.lastModifiedAt since = true) ∧
    (∀ k r, (k, r) ∈ db.trackers → r.deleted = false →
       modifiedAfter r.lastModifiedAt since = true →
       trackerOut k r ∈ (sync_delta db since cid sevenDaysAgo now).config) ∧
    (∀ out ∈ (sync_delta db since cid sevenDaysAgo now).config,
       ∃ k r, (k, r) ∈ db.trackers ∧ r.deleted = false ∧
         modifiedAfter r.lastModifiedAt since = true ∧ out = trackerOut k r) ∧
    (keysNodup db.trackers → ∀ k r, (k, r) ∈ db.trackers → r.deleted = false →
       k ∉ (sync_delta db since cid sevenDaysAgo now).deletedTrackers) ∧
    (keysNodup db.entries → ∀ dk er, (dk, er) ∈ db.entries →
       (days2get (sync_delta db since cid sevenDaysAgo now).days dk.1 dk.2 =
          some (entryOut er) ↔
        (modifiedAfter er.lastModifiedAt since = true ∧
         strLe sevenDaysAgo dk.1 = true))) := by
  refine ⟨?_, ?_, ?_, ?_, ?_, ?_⟩
  · intro k r hmem hdel hmod
    exact List.mem_map.mpr ⟨(k, r),
      List.mem_filter.mpr ⟨List.mem_filter.mpr ⟨hmem, hmod⟩, hdel⟩, rfl⟩
  · intro k hk
    obtain ⟨⟨k0, r⟩, hmemf, hkeq⟩ := List.mem_map.mp hk
    obtain ⟨hmemf2, hdel⟩ := List.mem_filter.mp hmemf
    obtain ⟨hmem, hmod⟩ := List.mem_filter.mp hmemf2
    subst hkeq
    exact ⟨r, hmem, hdel, hmod⟩
  · intro k r hmem hdel hmod
    refine List.mem_map.mpr ⟨(k, r),
      List.mem_filter.mpr ⟨List.mem_filter.mpr ⟨hmem, hmod⟩, ?_⟩, rfl⟩
    simp [hdel]
  · intro out hout
    obtain ⟨⟨k, r⟩, hmemf, houteq⟩ := List.mem_map.mp hout
    obtain ⟨hmemf2, hdel⟩ := List.mem_filter.mp hmemf
    obtain ⟨hmem, hmod⟩ := List.mem_filter.mp hmemf2
    exact ⟨k, r, hmem, by simpa using hdel, hmod, houteq.symm⟩
  · intro hnd k r hmem hdel hk
    obtain ⟨⟨k0, r'⟩, hmemf, hkeq⟩ := List.mem_map.mp hk
    obtain ⟨hmemf2, hdel'⟩ := List.mem_filter.mp hmemf
    obtain ⟨hmem', -⟩ := List.mem_filter.mp hmemf2
    subst hkeq
    obtain rfl := nodup_key_unique hnd hmem' hmem
    rw [hdel] at hdel'
    simp at hdel'
  · intro hnd dk er hmem
    have hndf : keysNodup (db.entries.filter (fun kr =>
        modifiedAfter kr.2.lastModifiedAt since && strLe sevenDaysAgo kr.1.1)) :=
      keysNodup_filter _ _ hnd
    have hdays : (sync_delta db since cid sevenDaysAgo now).days =
        buildDays (db.entries.filter (fun kr =>
          modifiedAfter kr.2.lastModifiedAt since && strLe sevenDaysAgo kr.1.1)) := rfl
    rw [hdays, buildDays_days2get _ hndf dk.1 dk.2]
    by_cases hp : (modifiedAfter er.lastModifiedAt since &&
        strLe sevenDaysAgo dk.1) = true
    · have hmf : (dk, er) ∈ db.entries.filter (fun kr =>
          modifiedAfter kr.2.lastModifiedAt since && strLe sevenDaysAgo kr.1.1) :=
        List.mem_filter.mpr ⟨hmem, hp⟩
      have : aget (db.entries.filter (fun kr =>
          modifiedAfter kr.2.lastModifiedAt since && strLe sevenDaysAgo kr.1.1))
          (dk.1, dk.2) = some er := mem_aget hndf hmf
      rw [this]
      exact iff_of_true rfl (by simpa [Bool.and_eq_true] using hp)
    · have hnonef : aget (db.entries.filter (fun kr =>
          modifiedAfter kr.2.lastModifiedAt since && strLe sevenDaysAgo kr.1.1))
          (dk.1, dk.2) = none := by
        apply aget_eq_none_of_not_mem_keys
        intro hmemk
        obtain ⟨⟨key, x⟩, hx, hkey⟩ := List.mem_map.mp hmemk
        dsimp at hkey
        have hkd : key = dk := hkey
        subst hkd
        obtain ⟨hxmem, hxp⟩ := List.mem_filter.mp hx
        obtain rfl := nodup_key_unique hnd hxmem hmem
        exact hp (by simpa using hxp)
      rw [hnonef]
      simp only [Option.map_none']
      refine iff_of_false (by simp) ?_
      intro ⟨h1, h2⟩
      exact hp (by simp [h1, h2])

/-- C8 witness: against a store holding live t1, tombstone t2 and one entry,
the delta since a timestamp before everything lists t2 among the deleted ids
and does not list the live t1 there. -/
theorem C8_delta_snapshot_witness :
    some (JVal.str ("t2")) ∈
      (sync_delta dbDelta ("T0") ("c9") ("2024-01-01") ("T9")).deletedTrackers ∧
    some (JVal.str ("t1")) ∉
      (sync_delta dbDelta ("T0") ("c9") ("2024-01-01") ("T9")).deletedTrackers := by
  constructor
  · exact (C8_delta_snapshot dbDelta ("T0") ("c9") ("2024-01-01") ("T9")).1
      (some (JVal.str ("t2"))) rowDel (by decide) (by decide) (by decide)
  · exact (C8_delta_snapshot dbDelta ("T0") ("c9") ("2024-01-01") ("T9")).2.2.2.2.1
      (by decide) (some (JVal.str ("t1"))) rowT1 (by decide) (by decide)

/-- C10: a tracker item carrying the delete flag for an id absent from the
store passes the gate and is reported applied with version 1, but the UPDATE
matches no row: the database is returned unchanged, no tombstone exists, and
no later delta snapshot lists that id among the deleted ids. -/
theorem C10_delete_nonexistent (c n : String) (db : DB) (item : JDict)
    (hdel : isDeletedFlag item = true)
    (hnone : aget db.trackers (pyGet item ("id")) = none) :
    applyTrackerItem c n db item =
      some (db, none, some (dmerge item
        [("_version", JVal.num 1), ("_lastModifiedBy", JVal.str c),
         ("_lastModifiedAt", JVal.str n)])) ∧
    aget (dmerge item
        [("_version", JVal.num 1), ("_lastModifiedBy", JVal.str c),
         ("_lastModifiedAt", JVal.str n)]) ("_version") = some (JVal.num 1) ∧
    (∀ since cid sevenDaysAgo now2,
       pyGet item ("id") ∉
         (sync_delta db since cid sevenDaysAgo now2).deletedTrackers) := by
  refine ⟨?_, ?_, ?_⟩
  · rw [applyTrackerItem_of_none hnone, applyTrackerWrite_shape, if_pos hdel,
        aupdate_of_aget_none _ _ _ hnone]
    norm_num
  · rw [aget_dmerge]
    simp [aget]
  · intro since cid sevenDaysAgo now2 hk
    obtain ⟨⟨k0, r'⟩, hmemf, hkeq⟩ := List.mem_map.mp hk
    obtain ⟨hmemf2, -⟩ := List.mem_filter.mp hmemf
    obtain ⟨hmem, -⟩ := List.mem_filter.mp hmemf2
    dsimp at hkeq
    rw [hkeq] at hmem
    exact aget_isSome_of_mem hmem hnone

/-- C10 witness: deleting the nonexistent id tx against the store holding only
t1 is reported applied with version 1, leaves the store as it was, and a later
delta does not list tx as deleted. -/
theorem C10_delete_nonexistent_witness :
    applyTrackerItem ("c1") ("T3") dbT1 delItem =
      some (dbT1, none, some (dmerge delItem
        [("_version", JVal.num 1), ("_lastModifiedBy", JVal.str ("c1")),
         ("_lastModifiedAt", JVal.str ("T3"))])) ∧
    pyGet delItem ("id") ∉
      (sync_delta dbT1 ("T0") ("c1") ("D0") ("T9")).deletedTrackers := by
  obtain ⟨h1, h2, h3⟩ :=
    C10_delete_nonexistent ("c1") ("T3") dbT1 delItem (by decide) (by decide)
  exact ⟨h1, h3 ("T0") ("c1") ("D0") ("T9")⟩
